import Mathlib

/-!
Shallow embedding of the saga workflow engine (workflow executor, activity
executor, and the two store implementations), translated from the TypeScript
source: `src/executor.ts`, `src/memory/store.ts`, the SQL query layer
(`insertWorkflowLock`, `selectExecutableWorkflows`, `selectLostWorkflows`),
and `src/postgres.ts`.

Modelling conventions:
- JS `Date` values are modelled as `Int` milliseconds since the epoch.
- States are `String`s, exactly as in the source (the TS records declare
  `state: string` and the enums are string enums).
- Thrown JS values are modelled by `TSVal`: a string value or an opaque
  non-string value; the executor compares thrown values only against the
  string sentinel `"failed_permanent"`.
- `async`/`await` sequencing is deterministic within one executor run, so
  the effectful methods become pure state-passing functions; a thrown value
  is an `Option String` error component carried beside the state, so that
  `finally` blocks can be modelled faithfully.
- The v5 UUID of `generateActivityId` is modelled by an injective tagged
  concatenation; the source relies only on the id being a deterministic
  function of `(workflowId, activityType)`.
- The unbounded convergence recursions of the source are modelled with
  explicit fuel; running out of fuel yields an error value distinct from
  every error the source can produce, so an `Option.none` error component
  always corresponds to a normal return of the source.
-/

/-- A JavaScript value as far as the executor can observe it: a string, or
some non-string value (only its distinctness matters, never its content). -/
inductive TSVal where
  | str (s : String)
  | other (tag : Nat)
deriving DecidableEq, Repr

/- The workflow-state string constants of `enum WorkflowState`. -/
namespace WorkflowState

def queued : String := "queued"

def pending : String := "pending"

def running : String := "running"

def runningRetry : String := "running_retry"

def runningRollback : String := "running_rollback"

def failed : String := "failed"

def failedRollback : String := "failed_rollback"

def succeeded : String := "succeeded"

end WorkflowState

/- The activity-state string constants of `enum ActivityState`. -/
namespace ActivityState

def pending : String := "pending"

def running : String := "running"

def failedPermanent : String := "failed_permanent"

def failedTemporary : String := "failed_temporary"

def succeeded : String := "succeeded"

end ActivityState

/-- `interface Workflow` from `executor.ts`. -/
structure Workflow where
  id : String
  type : String
  state : String
  refType : String
  refId : String
  activityTypes : List String
  attempts : Nat
  executeAt : Option Int
  createdAt : Int
  updatedAt : Int
deriving DecidableEq, Repr

/-- `interface Activity` from `executor.ts`. -/
structure Activity where
  id : String
  type : String
  state : String
  workflowId : String
  createdAt : Int
  updatedAt : Int
deriving DecidableEq, Repr

/-- The characters of a string up to (excluding) the first `':'`:
JS `s.split(":", 1)[0]` on the character list. -/
def takeUntilColon : List Char → List Char
  | [] => []
  | c :: cs => if c = ':' then [] else c :: takeUntilColon cs

/-- JS `s.split(":", 1)[0]`. -/
def firstColonSegment (s : String) : String :=
  String.mk (takeUntilColon s.data)

/-- JS `s.replace(pat, "")` for a plain string pattern: remove the first
occurrence of `pat`, scanning left to right; if `pat` does not occur the
string is unchanged. -/
def dropFirstOccur (pat : List Char) : List Char → List Char
  | [] => []
  | c :: cs =>
    if pat = (c :: cs).take pat.length then (c :: cs).drop pat.length
    else c :: dropFirstOccur pat cs

/-- `ActivityExecutor.invoke`'s plugin-key computation:
`activity.type.replace("rollback:", "").split(":", 1)[0]`. -/
def normalizeActivityType (t : String) : String :=
  String.mk (takeUntilColon (dropFirstOccur "rollback:".data t.data))

/-- Modelled from the spec's words, for comparison with the source's
`normalizeActivityType`: strip a LEADING `rollback:` prefix if present,
then take the substring before the first `:`. -/
def specNormalizeActivityType (t : String) : String :=
  let stripped :=
    if "rollback:".data = t.data.take "rollback:".data.length then
      t.data.drop "rollback:".data.length
    else t.data
  String.mk (takeUntilColon stripped)

/-- An activity plugin, with its callback behaviour for one executor run:
`none` means the callback returns normally, `some v` means it fails with
the thrown value `v`. -/
structure ActivityPluginModel where
  type : String
  executeOutcome : Option TSVal
  rollbackOutcome : Option TSVal
deriving DecidableEq, Repr

/-- A workflow plugin: `plan` returns `planResult`. -/
structure WorkflowPluginModel where
  type : String
  planResult : List String
deriving DecidableEq, Repr

/-- `PluginRegistry.lookup` over the registered activity plugins (the map is
modelled by the association list it ends up containing). -/
def lookupPlugin (reg : List ActivityPluginModel) (t : String) :
    Option ActivityPluginModel :=
  reg.find? (fun p => p.type == t)

/-- `PluginRegistry.lookup` over the registered workflow plugins. -/
def lookupWorkflowPlugin (reg : List WorkflowPluginModel) (t : String) :
    Option WorkflowPluginModel :=
  reg.find? (fun p => p.type == t)

/-- One plugin-callback invocation, as observed through the fake plugins'
`executeCalled` / `rollbackCalled` counters: the operation (`"execute"` or
`"rollback"`), the type of the plugin invoked, and the type of the activity
it was invoked for. -/
structure CallEvent where
  op : String
  pluginType : String
  activityType : String
deriving DecidableEq, Repr

/-- The mutable state visible to one `WorkflowExecutor.execute` run backed by
the in-memory store: the workflow row, the activity rows of that workflow,
the lock set, and the log of plugin-callback invocations. -/
structure ExecState where
  workflow : Workflow
  activities : List Activity
  locks : List String
  log : List CallEvent
deriving DecidableEq, Repr

/-- `MemoryStore.getActivityByType` over the workflow's activity rows: the
first row whose type matches. -/
def findActivity? (as : List Activity) (t : String) : Option Activity :=
  match as with
  | [] => none
  | a :: rest => if a.type == t then some a else findActivity? rest t

/-- Persisting an activity row: every row with the same type is replaced
(the store and the executor alias the same object in the source). -/
def setActivity (as : List Activity) (a : Activity) : List Activity :=
  match as with
  | [] => []
  | b :: rest => (if b.type == a.type then a else b) :: setActivity rest a

/-- `generateActivityId`: the v5 UUID is modelled by an injective tagged
concatenation of the same name string; the source depends only on the id
being a deterministic, stable function of `(workflowId, activityType)`. -/
def generateActivityId (workflowId activityType : String) : String :=
  "uuidv5:" ++ workflowId ++ ":" ++ activityType

/-- `MemoryStore.setWorkflowState` / `PostgresStore.setWorkflowState`:
set the state, increment `attempts` when the new state is `running`, and
refresh `updatedAt`. -/
def setWorkflowStateOp (now : Int) (st : ExecState) (s : String) : ExecState :=
  let wf := st.workflow
  let wf :=
    { wf with
      state := s
      attempts := wf.attempts + (if s = WorkflowState.running then 1 else 0)
      updatedAt := now }
  { st with workflow := wf }

/-- `MemoryStore.updateWorkflow`: persist the (already mutated) workflow
object and refresh `updatedAt`. -/
def updateWorkflowOp (now : Int) (st : ExecState) (wf : Workflow) : ExecState :=
  { st with workflow := { wf with updatedAt := now } }

/-- `ActivityExecutor.isActivityTerminal`. -/
def isActivityTerminal (a : Activity) : Bool :=
  a.state == ActivityState.failedPermanent || a.state == ActivityState.succeeded

/-- `ActivityExecutor.create`: get-or-insert the activity by type, with the
deterministic id. -/
def activityCreate (now : Int) (st : ExecState) (atype : String) :
    ExecState × Activity :=
  match findActivity? st.activities atype with
  | some a => (st, a)
  | none =>
    let a : Activity :=
      { id := generateActivityId st.workflow.id atype
        type := atype
        state := ActivityState.pending
        workflowId := st.workflow.id
        createdAt := now
        updatedAt := now }
    ({ st with activities := st.activities ++ [a] }, a)

/-- `ActivityExecutor.handleRunning`: invoke the callback (recording the
invocation), then classify the outcome exactly as the source's catch block
does and persist the resulting activity state. -/
def activityHandleRunning (op pluginType : String) (outcome : Option TSVal)
    (now : Int) (st : ExecState) (a : Activity) : ExecState × Activity :=
  let st :=
    { st with
      log := st.log ++
        [({ op := op, pluginType := pluginType, activityType := a.type } : CallEvent)] }
  match outcome with
  | none =>
    let a := { a with state := ActivityState.succeeded, updatedAt := now }
    ({ st with activities := setActivity st.activities a }, a)
  | some v =>
    let s :=
      if v = TSVal.str ActivityState.failedPermanent then ActivityState.failedPermanent
      else ActivityState.failedTemporary
    let a := { a with state := s, updatedAt := now }
    ({ st with activities := setActivity st.activities a }, a)

/-- `ActivityExecutor.converge`, with explicit fuel (the source recursion
terminates in at most three steps; fuel exhaustion is reported as an error
no source path can produce). -/
def activityConverge (op pluginType : String) (outcome : Option TSVal)
    (now : Int) : Nat → ExecState → Activity → ExecState × Activity × Option String
  | 0, st, a => (st, a, some "activity converge out of fuel")
  | fuel + 1, st, a =>
    if a.state = ActivityState.pending then
      let a := { a with state := ActivityState.running, updatedAt := now }
      let st := { st with activities := setActivity st.activities a }
      activityConverge op pluginType outcome now fuel st a
    else if a.state = ActivityState.running then
      let r := activityHandleRunning op pluginType outcome now st a
      activityConverge op pluginType outcome now fuel r.1 r.2
    else (st, a, none)

/-- Fuel sufficient for every reachable `activityConverge` run
(`pending → running → terminal` needs three steps). -/
def activityConvergeFuel : Nat := 4

/-- `ActivityExecutor.invoke`: resolve the plugin by the normalized activity
type, reset a non-terminal activity to `pending`, then run the convergence
loop with the selected callback. -/
def invokeActivity (reg : List ActivityPluginModel) (now : Int) (op : String)
    (st : ExecState) (a : Activity) : ExecState × Activity × Option String :=
  match lookupPlugin reg (normalizeActivityType a.type) with
  | none => (st, a, some ("unknown activity plugin: " ++ a.type))
  | some p =>
    let r : ExecState × Activity :=
      if isActivityTerminal a then (st, a)
      else
        let a := { a with state := ActivityState.pending, updatedAt := now }
        ({ st with activities := setActivity st.activities a }, a)
    let outcome := if op = "execute" then p.executeOutcome else p.rollbackOutcome
    activityConverge op p.type outcome now activityConvergeFuel r.1 r.2

/-- The optional notifier: each hook either succeeds or fails (rejects) on
every call during the run. -/
structure NotifierModel where
  beginWorkflowFails : Bool
  endWorkflowFails : Bool
  beginActivityFails : Bool
  endActivityFails : Bool
deriving DecidableEq, Repr

def notifBeginWorkflowFails : Option NotifierModel → Bool
  | none => false
  | some n => n.beginWorkflowFails

def notifEndWorkflowFails : Option NotifierModel → Bool
  | none => false
  | some n => n.endWorkflowFails

def notifBeginActivityFails : Option NotifierModel → Bool
  | none => false
  | some n => n.beginActivityFails

def notifEndActivityFails : Option NotifierModel → Bool
  | none => false
  | some n => n.endActivityFails

/-- The thrown value of a failing notifier hook, by hook name. -/
def notifierFailureMessage (hook : String) : String :=
  "notifier failure: " ++ hook

/-- The executor's environment: the two plugin registries, the retry
backoff, and the (frozen) wall clock. -/
structure Env where
  workflowPlugins : List WorkflowPluginModel
  activityPlugins : List ActivityPluginModel
  retryBackoffMilliseconds : Int
  now : Int
deriving DecidableEq, Repr

/-- The `WorkflowExecutor` constructor's default retry backoff:
`10 * 1000` milliseconds. -/
def defaultRetryBackoffMilliseconds : Int := 10 * 1000

/-- Sequence two steps of the executor, propagating a thrown value while
keeping the store state reached so far (the store is mutated in place in
the source, so mutations survive a throw). -/
def andThenE (r : ExecState × Option String)
    (f : ExecState → ExecState × Option String) : ExecState × Option String :=
  match r with
  | (st, some e) => (st, some e)
  | (st, none) => f st

/-- `WorkflowExecutor.handlePending`: plan if unplanned (empty plan fails
the workflow), then transition to `running`. -/
def handlePendingW (env : Env) (st : ExecState) : ExecState × Option String :=
  if st.workflow.activityTypes = [] then
    match lookupWorkflowPlugin env.workflowPlugins (firstColonSegment st.workflow.type) with
    | none => (st, some ("unknown workflow plugin: " ++ st.workflow.type))
    | some p =>
      if p.planResult = [] then (setWorkflowStateOp env.now st WorkflowState.failed, none)
      else
        let st := updateWorkflowOp env.now st { st.workflow with activityTypes := p.planResult }
        (setWorkflowStateOp env.now st WorkflowState.running, none)
  else (setWorkflowStateOp env.now st WorkflowState.running, none)

/-- The loop body of `WorkflowExecutor.handleRunning` over the remaining
activity types, including the trailing transition to `succeeded` when the
loop completes; the `endActivity` hook runs in a `finally`, so its failure
replaces any in-flight result. -/
def forwardLoop (env : Env) (notif : Option NotifierModel) :
    List String → ExecState → ExecState × Option String
  | [], st => (setWorkflowStateOp env.now st WorkflowState.succeeded, none)
  | atype :: rest, st =>
    let c := activityCreate env.now st atype
    if notifBeginActivityFails notif then
      (c.1, some (notifierFailureMessage "beginActivity"))
    else
      match invokeActivity env.activityPlugins env.now "execute" c.1 c.2 with
      | (st, _, some e) =>
        if notifEndActivityFails notif then (st, some (notifierFailureMessage "endActivity"))
        else (st, some e)
      | (st, a, none) =>
        if a.state = ActivityState.failedPermanent then
          let st := setWorkflowStateOp env.now st WorkflowState.runningRollback
          if notifEndActivityFails notif then (st, some (notifierFailureMessage "endActivity"))
          else (st, none)
        else if a.state = ActivityState.failedTemporary then
          let st := setWorkflowStateOp env.now st WorkflowState.runningRetry
          if notifEndActivityFails notif then (st, some (notifierFailureMessage "endActivity"))
          else (st, none)
        else
          if notifEndActivityFails notif then (st, some (notifierFailureMessage "endActivity"))
          else forwardLoop env notif rest st

/-- `WorkflowExecutor.handleRunning`. -/
def handleRunningW (env : Env) (notif : Option NotifierModel) (st : ExecState) :
    ExecState × Option String :=
  forwardLoop env notif st.workflow.activityTypes st

/-- `WorkflowExecutor.handleRunningRetry`: set `executeAt = now + backoff`,
transition to `queued`, persist. -/
def handleRunningRetryW (env : Env) (st : ExecState) : ExecState × Option String :=
  let st :=
    { st with
      workflow := { st.workflow with executeAt := some (env.now + env.retryBackoffMilliseconds) } }
  let st := setWorkflowStateOp env.now st WorkflowState.queued
  let st := updateWorkflowOp env.now st st.workflow
  (st, none)

/-- The loop body of `WorkflowExecutor.handleRunningRollback` over the
(already reversed) activity types, including the trailing transition to
`failed` when the loop completes. -/
def rollbackLoop (env : Env) (notif : Option NotifierModel) :
    List String → ExecState → ExecState × Option String
  | [], st => (setWorkflowStateOp env.now st WorkflowState.failed, none)
  | atype :: rest, st =>
    match findActivity? st.activities atype with
    | none =>
      (st, some ("missing activity " ++ atype ++ " for workflow " ++
        st.workflow.type ++ " (" ++ st.workflow.id ++ ")"))
    | some a =>
      if a.state ≠ ActivityState.succeeded then rollbackLoop env notif rest st
      else
        let c := activityCreate env.now st ("rollback:" ++ atype)
        if notifBeginActivityFails notif then
          (c.1, some (notifierFailureMessage "beginActivity"))
        else
          match invokeActivity env.activityPlugins env.now "rollback" c.1 c.2 with
          | (st, _, some e) =>
            if notifEndActivityFails notif then (st, some (notifierFailureMessage "endActivity"))
            else (st, some e)
          | (st, rb, none) =>
            if rb.state = ActivityState.failedPermanent then
              let st := setWorkflowStateOp env.now st WorkflowState.failedRollback
              if notifEndActivityFails notif then (st, some (notifierFailureMessage "endActivity"))
              else (st, none)
            else if rb.state = ActivityState.failedTemporary then
              let st := setWorkflowStateOp env.now st WorkflowState.runningRetry
              if notifEndActivityFails notif then (st, some (notifierFailureMessage "endActivity"))
              else (st, none)
            else
              if notifEndActivityFails notif then (st, some (notifierFailureMessage "endActivity"))
              else rollbackLoop env notif rest st

/-- `WorkflowExecutor.handleRunningRollback`: iterate the plan in reverse. -/
def handleRunningRollbackW (env : Env) (notif : Option NotifierModel)
    (st : ExecState) : ExecState × Option String :=
  rollbackLoop env notif st.workflow.activityTypes.reverse st

/-- `WorkflowExecutor.converge`, with explicit fuel; note the
`running_retry` case does not recurse. -/
def convergeW (env : Env) (notif : Option NotifierModel) :
    Nat → ExecState → ExecState × Option String
  | 0, st => (st, some "workflow converge out of fuel")
  | fuel + 1, st =>
    if st.workflow.state = WorkflowState.queued then
      (st, some "unexpected workflow state")
    else if st.workflow.state = WorkflowState.pending then
      andThenE (handlePendingW env st) (convergeW env notif fuel)
    else if st.workflow.state = WorkflowState.running then
      andThenE (handleRunningW env notif st) (convergeW env notif fuel)
    else if st.workflow.state = WorkflowState.runningRetry then
      handleRunningRetryW env st
    else if st.workflow.state = WorkflowState.runningRollback then
      andThenE (handleRunningRollbackW env notif st) (convergeW env notif fuel)
    else (st, none)

/-- `MemoryStore.lockWorkflow` within the executor state: fails when the
lock is held, with the literal message of the source. -/
def lockWorkflowOp (st : ExecState) : ExecState × Option String :=
  if st.locks.contains st.workflow.id then
    (st, some ("workflow " ++ st.workflow.type ++ " already locked (" ++ st.workflow.id ++ ")"))
  else ({ st with locks := st.workflow.id :: st.locks }, none)

/-- `MemoryStore.unlockWorkflow` within the executor state (idempotent). -/
def unlockWorkflowOp (st : ExecState) : ExecState :=
  { st with locks := st.locks.filter (fun i => i != st.workflow.id) }

/-- `WorkflowExecutor.execute`: lock (a lock failure propagates before the
`try`), run `beginWorkflow` and the convergence loop, and in the `finally`
release the lock and run `endWorkflow` (whose failure replaces the
in-flight result). -/
def executeW (env : Env) (notif : Option NotifierModel) (fuel : Nat)
    (st : ExecState) : ExecState × Option String :=
  match lockWorkflowOp st with
  | (st, some e) => (st, some e)
  | (st, none) =>
    let inner :=
      if notifBeginWorkflowFails notif then
        (st, some (notifierFailureMessage "beginWorkflow"))
      else convergeW env notif fuel st
    let st3 := unlockWorkflowOp inner.1
    if notifEndWorkflowFails notif then (st3, some (notifierFailureMessage "endWorkflow"))
    else (st3, inner.2)

/-- `MemoryStore.getExecutableWorkflows`: scan the cache in insertion order,
collecting while fewer than `limit` are collected; the filter is
`state = queued`, `executeAt` non-null, and `executeAt < cutoff`
(strictly); the returned workflows are not modified. -/
def memGetExecutableWorkflows (cutoff : Int) (limit : Nat) :
    List Workflow → List Workflow
  | [] => []
  | w :: ws =>
    if limit != 0 && w.state == WorkflowState.queued &&
        (match w.executeAt with
         | some e => decide (e < cutoff)
         | none => false) then
      w :: memGetExecutableWorkflows cutoff (limit - 1) ws
    else memGetExecutableWorkflows cutoff limit ws

/-- The row filter of `selectExecutableWorkflows`:
`executeAt <= cutoff AND state = 'queued'` (a SQL comparison against a NULL
`execute_at` is not satisfied). -/
def pgExecutableFilter (cutoff : Int) (w : Workflow) : Bool :=
  (match w.executeAt with
   | some e => decide (e ≤ cutoff)
   | none => false) && w.state == WorkflowState.queued

/-- `selectExecutableWorkflows` from the SQL layer: within one transaction,
select up to `limit` queued rows due at `cutoff` (row order modelled by
list order), update each selected row to `pending` refreshing `updatedAt`,
and return the updated rows. -/
def pgSelectExecutableWorkflows (now cutoff : Int) (limit : Nat)
    (table : List Workflow) : List Workflow :=
  ((table.filter (pgExecutableFilter cutoff)).take limit).map
    (fun w => { w with state := WorkflowState.pending, updatedAt := now })

/-- `MemoryStore.getLostWorkflows`: scan the cache, collecting up to `limit`
workflows in a non-terminal in-flight state whose `updatedAt` is older than
ten minutes (`10 * 60 * 1000` ms) before now. -/
def memGetLostWorkflows (now : Int) (limit : Nat) :
    List Workflow → List Workflow
  | [] => []
  | w :: ws =>
    if limit != 0 &&
        (w.state == WorkflowState.pending || w.state == WorkflowState.running ||
         w.state == WorkflowState.runningRetry || w.state == WorkflowState.runningRollback) &&
        decide (w.updatedAt < now - 10 * 60 * 1000) then
      w :: memGetLostWorkflows now (limit - 1) ws
    else memGetLostWorkflows now limit ws

/-- The in-flight state list of `selectLostWorkflows`. -/
def isInFlightState (s : String) : Bool :=
  s == WorkflowState.pending || s == WorkflowState.running ||
  s == WorkflowState.runningRetry || s == WorkflowState.runningRollback

/-- `selectLostWorkflows` from the SQL layer: with `start = now - lookback`
and `stop = now - cutoff`, select up to `limit` rows with an in-flight
state, `created_at BETWEEN start AND stop` (i.e. `start <= created_at` and
`created_at <= stop`, in exactly that argument order), and
`execute_at < stop`. -/
def pgSelectLostWorkflows (now lookback cutoff : Int) (limit : Nat)
    (table : List Workflow) : List Workflow :=
  let start := now - lookback
  let stop := now - cutoff
  (table.filter (fun w =>
    isInFlightState w.state &&
    decide (start ≤ w.createdAt) && decide (w.createdAt ≤ stop) &&
    (match w.executeAt with
     | some e => decide (e < stop)
     | none => false))).take limit

/-- `PostgresStore.getLostWorkflows` default for
`SAGA_WORKFLOW_GC_LOOKBACK_MS`. -/
def defaultGcLookbackMilliseconds : Int := 5000

/-- `PostgresStore.getLostWorkflows` default for
`SAGA_WORKFLOW_GC_CUTOFF_MS` (2 hours). -/
def defaultGcCutoffMilliseconds : Int := 7200000

/-- The lock-contention error message of `MemoryStore.lockWorkflow`. -/
def memLockErrorMessage (w : Workflow) : String :=
  "workflow " ++ w.type ++ " already locked (" ++ w.id ++ ")"

/-- `MemoryStore.lockWorkflow` over the lock set: fails iff the workflow's
lock is already held. -/
def memLockWorkflow (locks : List String) (w : Workflow) :
    Except String (List String) :=
  if locks.contains w.id then Except.error (memLockErrorMessage w)
  else Except.ok (w.id :: locks)

/-- `insertWorkflowLock` from the SQL layer: a duplicate primary key raises
the unique-violation error (code 23505), which is rewrapped with the
hard-coded message `workflow workflow-type already locked (<id>)`. -/
def pgInsertWorkflowLock (lockTable : List String) (lockId : String) :
    Except String (List String) :=
  if lockTable.contains lockId then
    Except.error ("workflow workflow-type already locked (" ++ lockId ++ ")")
  else Except.ok (lockId :: lockTable)

/-- `PostgresStore.lockWorkflow`: insert a lock row keyed by the workflow
id. -/
def pgLockWorkflow (lockTable : List String) (w : Workflow) :
    Except String (List String) :=
  pgInsertWorkflowLock lockTable w.id

/-- The store operations that touch a workflow row's scalar fields, for
reasoning about `attempts`. -/
inductive StoreOp where
  | setState (s : String)
  | update
deriving DecidableEq, Repr

/-- The effect of one store operation on a workflow row, as implemented by
both `MemoryStore` and `PostgresStore`: `setState` assigns the state,
increments `attempts` iff the new state is `running`, and refreshes
`updatedAt`; `update` refreshes `updatedAt`. -/
def applyStoreOp (now : Int) (w : Workflow) : StoreOp → Workflow
  | StoreOp.setState s =>
    { w with
      state := s
      attempts := w.attempts + (if s = WorkflowState.running then 1 else 0)
      updatedAt := now }
  | StoreOp.update => { w with updatedAt := now }

/-- Run a sequence of store operations on a workflow row. -/
def runStoreOps (now : Int) (w : Workflow) : List StoreOp → Workflow
  | [] => w
  | op :: ops => runStoreOps now (applyStoreOp now w op) ops

/-- The number of times the workflow's state enters `running` along a trace:
steps whose pre-state is not `running` and whose post-state is. -/
def enteredRunningCount (now : Int) (w : Workflow) : List StoreOp → Nat
  | [] => 0
  | op :: ops =>
    let w2 := applyStoreOp now w op
    (if w.state ≠ WorkflowState.running ∧ w2.state = WorkflowState.running then 1 else 0) +
      enteredRunningCount now w2 ops

/-- The number of `setWorkflowState(_, running)` calls in a trace. -/
def setRunningCount : List StoreOp → Nat
  | [] => 0
  | StoreOp.setState s :: ops =>
    (if s = WorkflowState.running then 1 else 0) + setRunningCount ops
  | StoreOp.update :: ops => setRunningCount ops

/-- A trace never sets the state to `running` while it is already
`running` (the executor only enters `running` from `pending`). -/
def noRedundantRunningSet (now : Int) (w : Workflow) : List StoreOp → Bool
  | [] => true
  | op :: ops =>
    (match op with
     | StoreOp.setState s =>
       !(s == WorkflowState.running && w.state == WorkflowState.running)
     | StoreOp.update => true) &&
    noRedundantRunningSet now (applyStoreOp now w op) ops

/-- The activity state that `ActivityExecutor.handleRunning` records for a
callback outcome (for use in theorem statements). -/
def classifyOutcome : Option TSVal → String
  | none => ActivityState.succeeded
  | some v =>
    if v = TSVal.str ActivityState.failedPermanent then ActivityState.failedPermanent
    else ActivityState.failedTemporary

/-- The call event recorded when the forward callback of activity type `u`
runs (its plugin is registered under the normalized type). -/
def forwardExecEvent (u : String) : CallEvent :=
  { op := "execute", pluginType := normalizeActivityType u, activityType := u }

/-- The call event recorded when the rollback callback compensating forward
activity type `u` runs. -/
def rollbackExecEvent (u : String) : CallEvent :=
  { op := "rollback"
    pluginType := normalizeActivityType ("rollback:" ++ u)
    activityType := "rollback:" ++ u }

/-- The eight workflow states. -/
def workflowStateValid (s : String) : Bool :=
  s == WorkflowState.queued || s == WorkflowState.pending ||
  s == WorkflowState.running || s == WorkflowState.runningRetry ||
  s == WorkflowState.runningRollback || s == WorkflowState.failed ||
  s == WorkflowState.failedRollback || s == WorkflowState.succeeded

/-- A sample workflow row (id `wf-1`, type `wt`) in the given state with the
given `executeAt`, used to instantiate the theorems at concrete inputs. -/
def sampleWorkflow (s : String) (e : Option Int) : Workflow :=
  { id := "wf-1"
    type := "wt"
    state := s
    refType := "ref-type"
    refId := "ref-1"
    activityTypes := []
    attempts := 0
    executeAt := e
    createdAt := 0
    updatedAt := 0 }

/-- A sample activity row of the given type and state for workflow `wf-1`. -/
def activityRec (t s : String) : Activity :=
  { id := "act-" ++ t
    type := t
    state := s
    workflowId := "wf-1"
    createdAt := 0
    updatedAt := 0 }

/-- A sample executor state around `sampleWorkflow`: no activities, no locks,
an empty call log. -/
def demoState (s : String) (plan : List String) : ExecState :=
  { workflow := { (sampleWorkflow s none) with activityTypes := plan }
    activities := []
    locks := []
    log := [] }

/-- A sample environment: one workflow plugin `wt` planning `["a"]`, the
given activity plugins, the default retry backoff, clock frozen at 0. -/
def demoEnv (plugins : List ActivityPluginModel) : Env :=
  { workflowPlugins := [{ type := "wt", planResult := ["a"] }]
    activityPlugins := plugins
    retryBackoffMilliseconds := defaultRetryBackoffMilliseconds
    now := 0 }

/-- An activity plugin `a` whose callbacks both return normally. -/
def pluginOkA : ActivityPluginModel :=
  { type := "a", executeOutcome := none, rollbackOutcome := none }

/-- An activity plugin `a` whose execute callback fails with the non-sentinel
value `"boom"`. -/
def pluginBoomA : ActivityPluginModel :=
  { type := "a", executeOutcome := some (TSVal.str "boom"), rollbackOutcome := none }

/-- A notifier whose `beginWorkflow` hook fails on every call. -/
def notifierBeginFails : NotifierModel :=
  { beginWorkflowFails := true
    endWorkflowFails := false
    beginActivityFails := false
    endActivityFails := false }

/-- An executor state in `running_rollback` with plan `["a", "b"]`, where the
forward activity `a` succeeded and `b` failed permanently. -/
def rollbackDemoState : ExecState :=
  { workflow := { (sampleWorkflow WorkflowState.runningRollback none) with activityTypes := ["a", "b"] }
    activities := [activityRec "a" ActivityState.succeeded, activityRec "b" ActivityState.failedPermanent]
    locks := []
    log := [] }

/-- The forward-activity states of `rollbackDemoState`, as a function. -/
def sfDemo : String → String :=
  fun t => if t = "a" then ActivityState.succeeded else ActivityState.failedPermanent

/-- An executor state holding one running activity `a`. -/
def c1State : ExecState :=
  { workflow := sampleWorkflow WorkflowState.running none
    activities := [activityRec "a" ActivityState.running]
    locks := []
    log := [] }

/-- A workflow that is lost by the spec's criteria at `now = 10000000` under
the default GC settings: in-flight (`pending`), `createdAt` inside the
liveness window, `executeAt` before `now - lookback`, freshly updated. -/
def lostSampleWorkflow : Workflow :=
  { (sampleWorkflow WorkflowState.pending (some 9990000)) with createdAt := 6400000, updatedAt := 10000000 }

/-- The activity record `ActivityExecutor.create` inserts for a fresh
activity type (with its state field generalized, for describing the record
after later updates). -/
def mkActivity (wfId u : String) (now : Int) (s : String) : Activity :=
  { id := generateActivityId wfId u
    type := u
    state := s
    workflowId := wfId
    createdAt := now
    updatedAt := now }

/-! Basic lemmas about the activity-row operations. -/

theorem findActivity?_setActivity_ne (as : List Activity) (a : Activity)
    (u : String) (h : a.type ≠ u) :
    findActivity? (setActivity as a) u = findActivity? as u := by
  induction as with
  | nil => rfl
  | cons b bs ih =>
    by_cases hb : b.type = a.type
    · have hbu : b.type ≠ u := hb ▸ h
      simp [setActivity, findActivity?, hb, hbu, h, Ne.symm h, ih]
    · by_cases hu : b.type = u
      · simp [setActivity, findActivity?, hb, hu, Ne.symm h]
      · simp [setActivity, findActivity?, hb, hu, ih]

theorem findActivity?_setActivity_self (as : List Activity) (a b : Activity)
    (u : String) (hfind : findActivity? as u = some b) (ha : a.type = u) :
    findActivity? (setActivity as a) u = some a := by
  induction as with
  | nil => simp [findActivity?] at hfind
  | cons c cs ih =>
    by_cases hc : c.type = u
    · simp [setActivity, findActivity?, hc, ha]
    · simp only [findActivity?, beq_iff_eq, if_neg hc] at hfind
      by_cases hca : c.type = a.type
      · exact absurd (hca.trans ha) hc
      · simp [setActivity, findActivity?, hca, hc, ih hfind]

theorem findActivity?_append_none (as : List Activity) (a : Activity)
    (u : String) (h : findActivity? as u = none) :
    findActivity? (as ++ [a]) u = if a.type == u then some a else none := by
  induction as with
  | nil => simp [findActivity?]
  | cons c cs ih =>
    by_cases hc : c.type = u
    · simp [findActivity?, hc] at h
    · simp only [findActivity?, beq_iff_eq, if_neg hc] at h
      simp [findActivity?, hc, ih h]

theorem findActivity?_append_of_some (as : List Activity) (a b : Activity)
    (u : String) (h : findActivity? as u = some b) :
    findActivity? (as ++ [a]) u = some b := by
  induction as with
  | nil => simp [findActivity?] at h
  | cons c cs ih =>
    by_cases hc : c.type = u
    · simp only [findActivity?, beq_iff_eq, if_pos hc] at h
      simp [findActivity?, hc, h]
    · simp only [findActivity?, beq_iff_eq, if_neg hc] at h
      simp [findActivity?, hc, ih h]

theorem contains_filter_bne (xs : List String) (v : String) :
    (xs.filter (fun i => i != v)).contains v = false := by
  induction xs with
  | nil => rfl
  | cons x xs ih =>
    by_cases h : x = v
    · have hx : (x != v) = false := by simp [bne, h]
      simp only [List.filter, hx]
      exact ih
    · have hx : (x != v) = true := by simp [bne, h]
      simp only [List.filter, hx]
      simp only [List.contains] at ih ⊢
      simp only [List.elem]
      rw [show (v == x) = false by simp [Ne.symm h]]
      exact ih

/-! Preservation lemmas: the activity executor never touches the workflow
row or the lock set. -/

theorem activityCreate_preserves (now : Int) (st : ExecState) (u : String) :
    (activityCreate now st u).1.workflow = st.workflow ∧
    (activityCreate now st u).1.locks = st.locks ∧
    (activityCreate now st u).1.log = st.log := by
  cases hf : findActivity? st.activities u <;> simp [activityCreate, hf]

theorem activityHandleRunning_preserves (op pt : String) (o : Option TSVal)
    (now : Int) (st : ExecState) (a : Activity) :
    (activityHandleRunning op pt o now st a).1.workflow = st.workflow ∧
    (activityHandleRunning op pt o now st a).1.locks = st.locks := by
  cases o <;> simp [activityHandleRunning]

theorem activityConverge_preserves (op pt : String) (o : Option TSVal)
    (now : Int) :
    ∀ (fuel : Nat) (st : ExecState) (a : Activity),
      (activityConverge op pt o now fuel st a).1.workflow = st.workflow ∧
      (activityConverge op pt o now fuel st a).1.locks = st.locks := by
  intro fuel
  induction fuel with
  | zero => intro st a; exact ⟨rfl, rfl⟩
  | succ n ih =>
    intro st a
    by_cases h1 : a.state = ActivityState.pending
    · simp only [activityConverge, if_pos h1]
      exact ⟨((ih _ _).1).trans rfl, ((ih _ _).2).trans rfl⟩
    · by_cases h2 : a.state = ActivityState.running
      · have hp := activityHandleRunning_preserves op pt o now st a
        simp only [activityConverge, if_neg h1, if_pos h2]
        exact ⟨((ih _ _).1).trans hp.1, ((ih _ _).2).trans hp.2⟩
      · simp [activityConverge, h1, h2]

theorem invokeActivity_preserves (reg : List ActivityPluginModel) (now : Int)
    (op : String) (st : ExecState) (a : Activity) :
    (invokeActivity reg now op st a).1.workflow = st.workflow ∧
    (invokeActivity reg now op st a).1.locks = st.locks := by
  cases hl : lookupPlugin reg (normalizeActivityType a.type) with
  | none => simp [invokeActivity, hl]
  | some p =>
    by_cases ht : isActivityTerminal a
    · simp only [invokeActivity, hl, if_pos ht]
      refine ⟨((activityConverge_preserves _ _ _ _ _ _ _).1).trans ?_,
        ((activityConverge_preserves _ _ _ _ _ _ _).2).trans ?_⟩ <;> rfl
    · simp only [invokeActivity, hl, if_neg ht]
      refine ⟨((activityConverge_preserves _ _ _ _ _ _ _).1).trans ?_,
        ((activityConverge_preserves _ _ _ _ _ _ _).2).trans ?_⟩ <;> rfl

theorem lookupPlugin_type (reg : List ActivityPluginModel) (t : String)
    (p : ActivityPluginModel) (h : lookupPlugin reg t = some p) : p.type = t := by
  have h2 := List.find?_some h
  simpa using h2

theorem activityCreate_fresh (now : Int) (st : ExecState) (u : String)
    (h : findActivity? st.activities u = none) :
    activityCreate now st u =
      ({ st with activities := st.activities ++ [mkActivity st.workflow.id u now ActivityState.pending] },
        mkActivity st.workflow.id u now ActivityState.pending) := by
  simp [activityCreate, h, mkActivity]

theorem activityConverge_from_pending (op pt : String) (o : Option TSVal)
    (now : Int) (st : ExecState) (a : Activity)
    (ha : a.state = ActivityState.pending) :
    activityConverge op pt o now activityConvergeFuel st a =
      ({ st with
          activities := setActivity (setActivity st.activities { a with state := ActivityState.running, updatedAt := now }) { a with state := classifyOutcome o, updatedAt := now }
          log := st.log ++ [({ op := op, pluginType := pt, activityType := a.type } : CallEvent)] },
        { a with state := classifyOutcome o, updatedAt := now }, none) := by
  rcases o with _ | v
  · simp [activityConverge, activityConvergeFuel, activityHandleRunning, ha,
      classifyOutcome, ActivityState.pending, ActivityState.running,
      ActivityState.succeeded]
  · by_cases hv : v = TSVal.str "failed_permanent"
    · simp [activityConverge, activityConvergeFuel, activityHandleRunning, ha,
        hv, classifyOutcome, ActivityState.pending, ActivityState.running,
        ActivityState.failedPermanent]
    · simp [activityConverge, activityConvergeFuel, activityHandleRunning, ha,
        hv, classifyOutcome, ActivityState.pending, ActivityState.running,
        ActivityState.failedPermanent, ActivityState.failedTemporary]

theorem findActivity?_append_ne (as : List Activity) (b : Activity)
    (u2 : String) (h : b.type ≠ u2) :
    findActivity? (as ++ [b]) u2 = findActivity? as u2 := by
  induction as with
  | nil => simp [findActivity?, h]
  | cons c cs ih =>
    by_cases hc : c.type = u2
    · simp [findActivity?, hc]
    · simp [findActivity?, hc, ih]

theorem invokeActivity_fresh (reg : List ActivityPluginModel) (now : Int)
    (op : String) (st : ExecState) (a : Activity) (u : String)
    (p : ActivityPluginModel) (hu : a.type = u)
    (hlk : lookupPlugin reg (normalizeActivityType u) = some p)
    (hpend : a.state = ActivityState.pending) :
    invokeActivity reg now op st a =
      ({ st with
          activities := setActivity (setActivity (setActivity st.activities { a with state := ActivityState.pending, updatedAt := now }) { a with state := ActivityState.running, updatedAt := now }) { a with state := classifyOutcome (if op = "execute" then p.executeOutcome else p.rollbackOutcome), updatedAt := now }
          log := st.log ++ [({ op := op, pluginType := p.type, activityType := u } : CallEvent)] },
        { a with state := classifyOutcome (if op = "execute" then p.executeOutcome else p.rollbackOutcome), updatedAt := now }, none) := by
  have hlk2 : lookupPlugin reg (normalizeActivityType a.type) = some p := by
    rw [hu]; exact hlk
  have hnt : isActivityTerminal a = false := by
    simp [isActivityTerminal, hpend, ActivityState.pending,
      ActivityState.failedPermanent, ActivityState.succeeded]
  have hc := activityConverge_from_pending op p.type
    (if op = "execute" then p.executeOutcome else p.rollbackOutcome) now
    ({ st with activities := setActivity st.activities { a with state := ActivityState.pending, updatedAt := now } })
    ({ a with state := ActivityState.pending, updatedAt := now }) rfl
  simp only [invokeActivity, hlk2, hnt, Bool.false_eq_true, if_false]
  rw [hc]
  simp [hu]

theorem forwardLoop_cons_ok (env : Env) (u : String) (rest : List String)
    (st : ExecState) (p : ActivityPluginModel)
    (hlk : lookupPlugin env.activityPlugins (normalizeActivityType u) = some p)
    (ho : p.executeOutcome = none)
    (hfresh : findActivity? st.activities u = none) :
    ∃ as2,
      forwardLoop env none (u :: rest) st =
        forwardLoop env none rest { st with activities := as2, log := st.log ++ [forwardExecEvent u] } ∧
      (∀ u2, u2 ≠ u → findActivity? as2 u2 = findActivity? st.activities u2) := by
  have hcr := activityCreate_fresh env.now st u hfresh
  have hinv := invokeActivity_fresh env.activityPlugins env.now "execute"
    ({ st with activities := st.activities ++ [mkActivity st.workflow.id u env.now ActivityState.pending] })
    (mkActivity st.workflow.id u env.now ActivityState.pending) u p rfl hlk rfl
  refine ⟨setActivity (setActivity (setActivity (st.activities ++ [mkActivity st.workflow.id u env.now ActivityState.pending]) (mkActivity st.workflow.id u env.now ActivityState.pending)) (mkActivity st.workflow.id u env.now ActivityState.running)) (mkActivity st.workflow.id u env.now (classifyOutcome p.executeOutcome)), ?_, ?_⟩
  · simp only [forwardLoop, hcr, notifBeginActivityFails, Bool.false_eq_true, if_false]
    rw [hinv]
    simp [ho, classifyOutcome, ActivityState.succeeded, ActivityState.failedPermanent,
      ActivityState.failedTemporary, forwardExecEvent, lookupPlugin_type _ _ _ hlk,
      mkActivity, notifEndActivityFails]
  · intro u2 h2
    have hm : (mkActivity st.workflow.id u env.now ActivityState.pending).type ≠ u2 := by
      simp [mkActivity]; exact fun hh => h2 hh.symm
    have hm2 : (mkActivity st.workflow.id u env.now ActivityState.running).type ≠ u2 := by
      simp [mkActivity]; exact fun hh => h2 hh.symm
    have hm3 : (mkActivity st.workflow.id u env.now (classifyOutcome p.executeOutcome)).type ≠ u2 := by
      simp [mkActivity]; exact fun hh => h2 hh.symm
    rw [findActivity?_setActivity_ne _ _ _ hm3, findActivity?_setActivity_ne _ _ _ hm2,
      findActivity?_setActivity_ne _ _ _ hm, findActivity?_append_ne _ _ _ hm]

theorem forwardLoop_cons_tempFail (env : Env) (u : String) (rest : List String)
    (st : ExecState) (p : ActivityPluginModel) (v : TSVal)
    (hlk : lookupPlugin env.activityPlugins (normalizeActivityType u) = some p)
    (ho : p.executeOutcome = some v)
    (hv : v ≠ TSVal.str "failed_permanent")
    (hfresh : findActivity? st.activities u = none) :
    ∃ as2,
      forwardLoop env none (u :: rest) st =
        ({ workflow := { st.workflow with state := WorkflowState.runningRetry, updatedAt := env.now }, activities := as2, locks := st.locks, log := st.log ++ [forwardExecEvent u] }, none) := by
  have hcr := activityCreate_fresh env.now st u hfresh
  have hinv := invokeActivity_fresh env.activityPlugins env.now "execute"
    ({ st with activities := st.activities ++ [mkActivity st.workflow.id u env.now ActivityState.pending] })
    (mkActivity st.workflow.id u env.now ActivityState.pending) u p rfl hlk rfl
  refine ⟨setActivity (setActivity (setActivity (st.activities ++ [mkActivity st.workflow.id u env.now ActivityState.pending]) (mkActivity st.workflow.id u env.now ActivityState.pending)) (mkActivity st.workflow.id u env.now ActivityState.running)) (mkActivity st.workflow.id u env.now ActivityState.failedTemporary), ?_⟩
  simp only [forwardLoop, hcr, notifBeginActivityFails, Bool.false_eq_true, if_false]
  rw [hinv]
  simp [ho, hv, classifyOutcome, ActivityState.failedPermanent, ActivityState.failedTemporary,
    forwardExecEvent, lookupPlugin_type _ _ _ hlk, mkActivity, notifEndActivityFails,
    setWorkflowStateOp, WorkflowState.runningRetry, WorkflowState.running]

theorem forwardLoop_tempFail_run (env : Env) (t : String) (post : List String)
    (pt : ActivityPluginModel) (v : TSVal)
    (hlt : lookupPlugin env.activityPlugins (normalizeActivityType t) = some pt)
    (hot : pt.executeOutcome = some v)
    (hv : v ≠ TSVal.str "failed_permanent") :
    ∀ (pre : List String) (st : ExecState),
      (∀ u ∈ pre, ∃ p, lookupPlugin env.activityPlugins (normalizeActivityType u) = some p ∧ p.executeOutcome = none) →
      (∀ u ∈ pre, findActivity? st.activities u = none) →
      findActivity? st.activities t = none →
      t ∉ pre →
      pre.Nodup →
      ∃ as2,
        forwardLoop env none (pre ++ t :: post) st =
          ({ workflow := { st.workflow with state := WorkflowState.runningRetry, updatedAt := env.now }, activities := as2, locks := st.locks, log := st.log ++ (pre.map forwardExecEvent ++ [forwardExecEvent t]) }, none) := by
  intro pre
  induction pre with
  | nil =>
    intro st _ _ hft _ _
    obtain ⟨as2, heq⟩ := forwardLoop_cons_tempFail env t post st pt v hlt hot hv hft
    exact ⟨as2, by simpa using heq⟩
  | cons u pre ih =>
    intro st hplug hfresh hft hnotin hnd
    obtain ⟨p, hp, hpo⟩ := hplug u (by simp)
    obtain ⟨asMid, heq, hstab⟩ := forwardLoop_cons_ok env u (pre ++ t :: post) st p hp hpo (hfresh u (by simp))
    have hne : ∀ u2 ∈ pre, u2 ≠ u := by
      intro u2 hm
      exact fun hh => (List.nodup_cons.mp hnd).1 (hh ▸ hm)
    have hfresh2 : ∀ u2 ∈ pre, findActivity? asMid u2 = none := by
      intro u2 hm
      rw [hstab u2 (hne u2 hm)]
      exact hfresh u2 (by simp [hm])
    have hft2 : findActivity? asMid t = none := by
      have htu : t ≠ u := fun hh => hnotin (by simp [hh])
      rw [hstab t htu]; exact hft
    obtain ⟨asF, heqF⟩ := ih ({ st with activities := asMid, log := st.log ++ [forwardExecEvent u] })
      (fun u2 hm => hplug u2 (by simp [hm])) hfresh2 hft2
      (fun hm => hnotin (by simp [hm])) (List.nodup_cons.mp hnd).2
    refine ⟨asF, ?_⟩
    simp only [List.cons_append]
    rw [heq, heqF]
    simp

theorem andThenE_none (st : ExecState) (f : ExecState → ExecState × Option String) :
    andThenE (st, none) f = f st := rfl

theorem convergeW_pending (env : Env) (notif : Option NotifierModel) (fuel : Nat)
    (st : ExecState) (h : st.workflow.state = WorkflowState.pending) :
    convergeW env notif (fuel + 1) st =
      andThenE (handlePendingW env st) (convergeW env notif fuel) := by
  simp [convergeW, h, WorkflowState.pending, WorkflowState.queued]

theorem convergeW_running (env : Env) (notif : Option NotifierModel) (fuel : Nat)
    (st : ExecState) (h : st.workflow.state = WorkflowState.running) :
    convergeW env notif (fuel + 1) st =
      andThenE (handleRunningW env notif st) (convergeW env notif fuel) := by
  simp [convergeW, h, WorkflowState.running, WorkflowState.queued, WorkflowState.pending]

theorem convergeW_retry (env : Env) (notif : Option NotifierModel) (fuel : Nat)
    (st : ExecState) (h : st.workflow.state = WorkflowState.runningRetry) :
    convergeW env notif (fuel + 1) st = handleRunningRetryW env st := by
  simp [convergeW, h, WorkflowState.runningRetry, WorkflowState.queued,
    WorkflowState.pending, WorkflowState.running]

theorem convergeW_rollback (env : Env) (notif : Option NotifierModel) (fuel : Nat)
    (st : ExecState) (h : st.workflow.state = WorkflowState.runningRollback) :
    convergeW env notif (fuel + 1) st =
      andThenE (handleRunningRollbackW env notif st) (convergeW env notif fuel) := by
  simp [convergeW, h, WorkflowState.runningRollback, WorkflowState.queued,
    WorkflowState.pending, WorkflowState.running, WorkflowState.runningRetry]

theorem handlePendingW_planned (env : Env) (st : ExecState)
    (h : st.workflow.activityTypes ≠ []) :
    handlePendingW env st = (setWorkflowStateOp env.now st WorkflowState.running, none) := by
  simp [handlePendingW, h]

/-- C5: when a forward activity fails temporarily (its callback fails with
a value other than the `failed_permanent` sentinel), `execute` returns
normally with the workflow `queued`, `executeAt = now + retryBackoff`
(default 10000 ms), the failing plugin's execute callback invoked exactly
once, and no rollback callback invoked. -/
theorem c5_temporary_failure_requeues (env : Env) (st : ExecState)
    (pre post : List String) (t : String) (pt : ActivityPluginModel) (v : TSVal)
    (hstate : st.workflow.state = WorkflowState.pending)
    (hplan : st.workflow.activityTypes = pre ++ t :: post)
    (hacts : st.activities = [])
    (hlocks : st.locks = [])
    (hlog : st.log = [])
    (hplug : ∀ u ∈ pre, ∃ p, lookupPlugin env.activityPlugins (normalizeActivityType u) = some p ∧ p.executeOutcome = none)
    (hlt : lookupPlugin env.activityPlugins (normalizeActivityType t) = some pt)
    (hot : pt.executeOutcome = some v)
    (hv : v ≠ TSVal.str "failed_permanent")
    (hnotin : t ∉ pre) (hnd : pre.Nodup)
    (hdiff : ∀ u ∈ pre, normalizeActivityType u ≠ normalizeActivityType t) :
    (executeW env none 10 st).2 = none ∧
    (executeW env none 10 st).1.workflow.state = WorkflowState.queued ∧
    (executeW env none 10 st).1.workflow.executeAt = some (env.now + env.retryBackoffMilliseconds) ∧
    defaultRetryBackoffMilliseconds = 10000 ∧
    ((executeW env none 10 st).1.log.filter (fun e => e.op == "execute" && e.pluginType == pt.type)).length = 1 ∧
    ((executeW env none 10 st).1.log.filter (fun e => e.op == "rollback")).length = 0 := by
  obtain ⟨wf, acts, lks, lg⟩ := st
  simp only at hstate hplan hacts hlocks hlog
  subst hacts hlocks hlog
  obtain ⟨wid, wtype, wstate, wrefT, wrefI, wplan, watt, wexec, wcr, wup⟩ := wf
  simp only at hstate hplan
  subst hstate hplan
  -- step 1: the lock is taken
  have e1 : executeW env none 10 ⟨⟨wid, wtype, WorkflowState.pending, wrefT, wrefI, pre ++ t :: post, watt, wexec, wcr, wup⟩, [], [], []⟩ =
      (unlockWorkflowOp (convergeW env none 10 ⟨⟨wid, wtype, WorkflowState.pending, wrefT, wrefI, pre ++ t :: post, watt, wexec, wcr, wup⟩, [], [wid], []⟩).1,
        (convergeW env none 10 ⟨⟨wid, wtype, WorkflowState.pending, wrefT, wrefI, pre ++ t :: post, watt, wexec, wcr, wup⟩, [], [wid], []⟩).2) := by
    simp [executeW, lockWorkflowOp, notifBeginWorkflowFails, notifEndWorkflowFails, List.contains]
  -- step 2: pending -> running
  have e2 : convergeW env none 10 ⟨⟨wid, wtype, WorkflowState.pending, wrefT, wrefI, pre ++ t :: post, watt, wexec, wcr, wup⟩, [], [wid], []⟩ =
      convergeW env none 9 ⟨⟨wid, wtype, WorkflowState.running, wrefT, wrefI, pre ++ t :: post, watt + 1, wexec, wcr, env.now⟩, [], [wid], []⟩ := by
    rw [show (10 : Nat) = 9 + 1 from rfl, convergeW_pending env none 9 _ rfl,
      handlePendingW_planned env _ (by simp)]
    simp [andThenE, setWorkflowStateOp, WorkflowState.running]
  -- step 3: the forward pass hits the temporary failure
  obtain ⟨asF, hFL⟩ := forwardLoop_tempFail_run env t post pt v hlt hot hv pre
    ⟨⟨wid, wtype, WorkflowState.running, wrefT, wrefI, pre ++ t :: post, watt + 1, wexec, wcr, env.now⟩, [], [wid], []⟩
    hplug (fun u _ => rfl) rfl hnotin hnd
  have e3 : convergeW env none 9 ⟨⟨wid, wtype, WorkflowState.running, wrefT, wrefI, pre ++ t :: post, watt + 1, wexec, wcr, env.now⟩, [], [wid], []⟩ =
      convergeW env none 8 ⟨⟨wid, wtype, WorkflowState.runningRetry, wrefT, wrefI, pre ++ t :: post, watt + 1, wexec, wcr, env.now⟩, asF, [wid], pre.map forwardExecEvent ++ [forwardExecEvent t]⟩ := by
    rw [show (9 : Nat) = 8 + 1 from rfl, convergeW_running env none 8 _ rfl]
    have hr : handleRunningW env none ⟨⟨wid, wtype, WorkflowState.running, wrefT, wrefI, pre ++ t :: post, watt + 1, wexec, wcr, env.now⟩, [], [wid], []⟩ =
        forwardLoop env none (pre ++ t :: post) ⟨⟨wid, wtype, WorkflowState.running, wrefT, wrefI, pre ++ t :: post, watt + 1, wexec, wcr, env.now⟩, [], [wid], []⟩ := rfl
    rw [hr, hFL]
    simp [andThenE]
  -- step 4: the retry scheduler requeues
  have e4 : convergeW env none 8 ⟨⟨wid, wtype, WorkflowState.runningRetry, wrefT, wrefI, pre ++ t :: post, watt + 1, wexec, wcr, env.now⟩, asF, [wid], pre.map forwardExecEvent ++ [forwardExecEvent t]⟩ =
      (⟨⟨wid, wtype, WorkflowState.queued, wrefT, wrefI, pre ++ t :: post, watt + 1, some (env.now + env.retryBackoffMilliseconds), wcr, env.now⟩, asF, [wid], pre.map forwardExecEvent ++ [forwardExecEvent t]⟩, none) := by
    rw [show (8 : Nat) = 7 + 1 from rfl, convergeW_retry env none 7 _ rfl]
    simp [handleRunningRetryW, setWorkflowStateOp, updateWorkflowOp,
      WorkflowState.queued, WorkflowState.running]
  rw [e1, e2, e3, e4]
  have hunlock : unlockWorkflowOp (⟨⟨wid, wtype, WorkflowState.queued, wrefT, wrefI, pre ++ t :: post, watt + 1, some (env.now + env.retryBackoffMilliseconds), wcr, env.now⟩, asF, [wid], pre.map forwardExecEvent ++ [forwardExecEvent t]⟩ : ExecState) =
      ⟨⟨wid, wtype, WorkflowState.queued, wrefT, wrefI, pre ++ t :: post, watt + 1, some (env.now + env.retryBackoffMilliseconds), wcr, env.now⟩, asF, [], pre.map forwardExecEvent ++ [forwardExecEvent t]⟩ := by
    simp [unlockWorkflowOp, List.filter, bne]
  rw [hunlock]
  refine ⟨rfl, rfl, rfl, rfl, ?_, ?_⟩
  · -- exactly one execute call on the failing plugin
    have hnil : (pre.map forwardExecEvent).filter (fun e => e.op == "execute" && e.pluginType == pt.type) = [] := by
      rw [List.filter_eq_nil_iff]
      intro e he
      obtain ⟨u, hu, rfl⟩ := List.mem_map.mp he
      have := hdiff u hu
      simp [forwardExecEvent, lookupPlugin_type _ _ _ hlt, this]
    simp [List.filter_append, hnil, forwardExecEvent, lookupPlugin_type _ _ _ hlt]
    exact fun u hu => hdiff u hu
  · -- no rollback call at all
    have hnil : (pre.map forwardExecEvent).filter (fun e => e.op == "rollback") = [] := by
      rw [List.filter_eq_nil_iff]
      intro e he
      obtain ⟨u, hu, rfl⟩ := List.mem_map.mp he
      simp [forwardExecEvent]
    simp [List.filter_append, hnil, forwardExecEvent]

theorem string_data_append (x y : String) : (x ++ y).data = x.data ++ y.data := by
  cases x; cases y; rfl

theorem rollbackType_injective (s t : String)
    (h : "rollback:" ++ s = "rollback:" ++ t) : s = t := by
  have hd := congrArg String.data h
  rw [string_data_append, string_data_append] at hd
  have h2 := List.append_cancel_left hd
  cases s; cases t
  simp only at h2
  rw [h2]

theorem rollbackLoop_cons_skip (env : Env) (u : String) (rest : List String)
    (st : ExecState) (a : Activity)
    (hfa : findActivity? st.activities u = some a)
    (hns : a.state ≠ ActivityState.succeeded) :
    rollbackLoop env none (u :: rest) st = rollbackLoop env none rest st := by
  simp [rollbackLoop, hfa, hns]

theorem rollbackLoop_cons_ok (env : Env) (u : String) (rest : List String)
    (st : ExecState) (a : Activity) (p : ActivityPluginModel)
    (hfa : findActivity? st.activities u = some a)
    (hs : a.state = ActivityState.succeeded)
    (hrb : findActivity? st.activities ("rollback:" ++ u) = none)
    (hlk : lookupPlugin env.activityPlugins (normalizeActivityType ("rollback:" ++ u)) = some p)
    (ho : p.rollbackOutcome = none) :
    ∃ as2,
      rollbackLoop env none (u :: rest) st =
        rollbackLoop env none rest { st with activities := as2, log := st.log ++ [rollbackExecEvent u] } ∧
      (∀ u2, u2 ≠ "rollback:" ++ u → findActivity? as2 u2 = findActivity? st.activities u2) := by
  have hcr := activityCreate_fresh env.now st ("rollback:" ++ u) hrb
  have hinv := invokeActivity_fresh env.activityPlugins env.now "rollback"
    ({ st with activities := st.activities ++ [mkActivity st.workflow.id ("rollback:" ++ u) env.now ActivityState.pending] })
    (mkActivity st.workflow.id ("rollback:" ++ u) env.now ActivityState.pending) ("rollback:" ++ u) p rfl hlk rfl
  refine ⟨setActivity (setActivity (setActivity (st.activities ++ [mkActivity st.workflow.id ("rollback:" ++ u) env.now ActivityState.pending]) (mkActivity st.workflow.id ("rollback:" ++ u) env.now ActivityState.pending)) (mkActivity st.workflow.id ("rollback:" ++ u) env.now ActivityState.running)) (mkActivity st.workflow.id ("rollback:" ++ u) env.now (classifyOutcome p.rollbackOutcome)), ?_, ?_⟩
  · simp only [rollbackLoop, hfa, hs, hcr, notifBeginActivityFails, Bool.false_eq_true,
      if_false, ne_eq, not_true_eq_false]
    rw [hinv]
    simp [ho, classifyOutcome, ActivityState.succeeded, ActivityState.failedPermanent,
      ActivityState.failedTemporary, rollbackExecEvent, lookupPlugin_type _ _ _ hlk,
      mkActivity, notifEndActivityFails]
  · intro u2 h2
    have hm : (mkActivity st.workflow.id ("rollback:" ++ u) env.now ActivityState.pending).type ≠ u2 := by
      simp [mkActivity]; exact fun hh => h2 hh.symm
    have hm2 : (mkActivity st.workflow.id ("rollback:" ++ u) env.now ActivityState.running).type ≠ u2 := by
      simp [mkActivity]; exact fun hh => h2 hh.symm
    have hm3 : (mkActivity st.workflow.id ("rollback:" ++ u) env.now (classifyOutcome p.rollbackOutcome)).type ≠ u2 := by
      simp [mkActivity]; exact fun hh => h2 hh.symm
    rw [findActivity?_setActivity_ne _ _ _ hm3, findActivity?_setActivity_ne _ _ _ hm2,
      findActivity?_setActivity_ne _ _ _ hm, findActivity?_append_ne _ _ _ hm]

theorem rollbackLoop_all_ok (env : Env) (sf : String → String) :
    ∀ (rs : List String) (st : ExecState),
      (∀ u ∈ rs, ∃ a, findActivity? st.activities u = some a ∧ a.state = sf u) →
      (∀ u ∈ rs, findActivity? st.activities ("rollback:" ++ u) = none) →
      (∀ u ∈ rs, sf u = ActivityState.succeeded →
        ∃ p, lookupPlugin env.activityPlugins (normalizeActivityType ("rollback:" ++ u)) = some p ∧ p.rollbackOutcome = none) →
      rs.Nodup →
      (∀ u ∈ rs, ∀ u2 ∈ rs, "rollback:" ++ u ≠ u2) →
      ∃ as2,
        rollbackLoop env none rs st =
          ({ workflow := { st.workflow with state := WorkflowState.failed, updatedAt := env.now }, activities := as2, locks := st.locks, log := st.log ++ (rs.filter (fun u => sf u == ActivityState.succeeded)).map rollbackExecEvent }, none) ∧
        (∀ u2, (∀ u ∈ rs, sf u = ActivityState.succeeded → u2 ≠ "rollback:" ++ u) →
          findActivity? as2 u2 = findActivity? st.activities u2) := by
  intro rs
  induction rs with
  | nil =>
    intro st _ _ _ _ _
    refine ⟨st.activities, ?_, fun u2 _ => rfl⟩
    simp [rollbackLoop, setWorkflowStateOp, WorkflowState.failed, WorkflowState.running]
  | cons u rest ih =>
    intro st hfwd hrb hplug hnd hdisj
    obtain ⟨a, hfa, hsa⟩ := hfwd u (by simp)
    by_cases hs : sf u = ActivityState.succeeded
    · obtain ⟨p, hp, hpo⟩ := hplug u (by simp) hs
      obtain ⟨asMid, heq, hstab⟩ := rollbackLoop_cons_ok env u rest st a p hfa
        (hsa.trans hs) (hrb u (by simp)) hp hpo
      have hneq : ∀ u2 ∈ rest, u2 ≠ "rollback:" ++ u := by
        intro u2 hm
        exact fun hh => (hdisj u (by simp) u2 (by simp [hm])) hh.symm
      have hfwd2 : ∀ u2 ∈ rest, ∃ a2, findActivity? asMid u2 = some a2 ∧ a2.state = sf u2 := by
        intro u2 hm
        obtain ⟨a2, hfa2, hs2⟩ := hfwd u2 (by simp [hm])
        exact ⟨a2, by rw [hstab u2 (hneq u2 hm)]; exact hfa2, hs2⟩
      have hrb2 : ∀ u2 ∈ rest, findActivity? asMid ("rollback:" ++ u2) = none := by
        intro u2 hm
        have hne2 : ("rollback:" ++ u2) ≠ ("rollback:" ++ u) := by
          intro hh
          have h3 := rollbackType_injective _ _ hh
          exact (List.nodup_cons.mp hnd).1 (h3 ▸ hm)
        rw [hstab _ hne2]
        exact hrb u2 (by simp [hm])
      obtain ⟨asF, heqF, hstabF⟩ := ih ({ st with activities := asMid, log := st.log ++ [rollbackExecEvent u] })
        hfwd2 hrb2 (fun u2 hm hsu => hplug u2 (by simp [hm]) hsu) (List.nodup_cons.mp hnd).2
        (fun u2 hm u3 hm3 => hdisj u2 (by simp [hm]) u3 (by simp [hm3]))
      refine ⟨asF, ?_, ?_⟩
      · rw [heq, heqF]
        simp [hs]
      · intro u2 hcond
        have h1 := hstabF u2 (fun u3 hm3 hs3 => hcond u3 (by simp [hm3]) hs3)
        rw [h1]
        exact hstab u2 (hcond u (by simp) hs)
    · have heq := rollbackLoop_cons_skip env u rest st a hfa (by rw [hsa]; exact hs)
      obtain ⟨asF, heqF, hstabF⟩ := ih st (fun u2 hm => hfwd u2 (by simp [hm]))
        (fun u2 hm => hrb u2 (by simp [hm])) (fun u2 hm hsu => hplug u2 (by simp [hm]) hsu)
        (List.nodup_cons.mp hnd).2 (fun u2 hm u3 hm3 => hdisj u2 (by simp [hm]) u3 (by simp [hm3]))
      refine ⟨asF, ?_, ?_⟩
      · rw [heq, heqF]
        simp [hs]
      · intro u2 hcond
        exact hstabF u2 (fun u3 hm3 hs3 => hcond u3 (by simp [hm3]) hs3)

/-- C2: for a workflow in `running_rollback` with a non-empty plan, the
rollback pass visits the plan in reverse order (the call log equals the
reversed plan filtered to `succeeded` forward activities, mapped to
rollback invocations), skips forward activities that are not `succeeded`
(no rollback activity is created or run for them), runs each rollback
under activity type `rollback:<activityType>`, and when no rollback fails
the workflow transitions to `failed`. -/
theorem c2_rollback_reverse_skip_failed (env : Env) (st : ExecState) (sf : String → String)
    (_hstate : st.workflow.state = WorkflowState.runningRollback)
    (_hne : st.workflow.activityTypes ≠ [])
    (hfwd : ∀ u ∈ st.workflow.activityTypes, ∃ a, findActivity? st.activities u = some a ∧ a.state = sf u)
    (hrb : ∀ u ∈ st.workflow.activityTypes, findActivity? st.activities ("rollback:" ++ u) = none)
    (hplug : ∀ u ∈ st.workflow.activityTypes, sf u = ActivityState.succeeded →
      ∃ p, lookupPlugin env.activityPlugins (normalizeActivityType ("rollback:" ++ u)) = some p ∧ p.rollbackOutcome = none)
    (hnd : st.workflow.activityTypes.Nodup)
    (hdisj : ∀ u ∈ st.workflow.activityTypes, ∀ u2 ∈ st.workflow.activityTypes, "rollback:" ++ u ≠ u2) :
    (handleRunningRollbackW env none st).2 = none ∧
    (handleRunningRollbackW env none st).1.workflow.state = WorkflowState.failed ∧
    (handleRunningRollbackW env none st).1.log =
      st.log ++ (st.workflow.activityTypes.reverse.filter (fun u => sf u == ActivityState.succeeded)).map rollbackExecEvent ∧
    (∀ u ∈ st.workflow.activityTypes, sf u ≠ ActivityState.succeeded →
      findActivity? (handleRunningRollbackW env none st).1.activities ("rollback:" ++ u) = none) := by
  obtain ⟨asF, heq, hstab⟩ := rollbackLoop_all_ok env sf st.workflow.activityTypes.reverse st
    (fun u hm => hfwd u (List.mem_reverse.mp hm))
    (fun u hm => hrb u (List.mem_reverse.mp hm))
    (fun u hm hsu => hplug u (List.mem_reverse.mp hm) hsu)
    (List.nodup_reverse.mpr hnd)
    (fun u hm u2 hm2 => hdisj u (List.mem_reverse.mp hm) u2 (List.mem_reverse.mp hm2))
  have hhrw : handleRunningRollbackW env none st = rollbackLoop env none st.workflow.activityTypes.reverse st := rfl
  rw [hhrw, heq]
  refine ⟨rfl, rfl, rfl, ?_⟩
  intro u hm hns
  have h5 := hstab ("rollback:" ++ u)
    (fun u3 hm3 hs3 hh => hns (by rw [rollbackType_injective _ _ hh]; exact hs3))
  simp only at h5
  rw [h5]
  exact hrb u hm

theorem forwardLoop_states (env : Env) (notif : Option NotifierModel) :
    ∀ (us : List String) (st : ExecState),
      (forwardLoop env notif us st).2 = none →
      (forwardLoop env notif us st).1.workflow.state = WorkflowState.succeeded ∨
      (forwardLoop env notif us st).1.workflow.state = WorkflowState.runningRollback ∨
      (forwardLoop env notif us st).1.workflow.state = WorkflowState.runningRetry := by
  intro us
  induction us with
  | nil =>
    intro st _
    left
    simp [forwardLoop, setWorkflowStateOp]
  | cons u rest ih =>
    intro st h
    by_cases hb : notifBeginActivityFails notif
    · simp [forwardLoop, hb] at h
    · simp only [forwardLoop, hb, Bool.false_eq_true, if_false] at h ⊢
      rcases hv : invokeActivity env.activityPlugins env.now "execute"
        (activityCreate env.now st u).1 (activityCreate env.now st u).2 with ⟨st2, a2, e2⟩
      rw [hv] at h
      by_cases he : notifEndActivityFails notif
      · rcases e2 with _ | e
        · by_cases h1 : a2.state = ActivityState.failedPermanent
          · simp [h1, he] at h
          · by_cases h2 : a2.state = ActivityState.failedTemporary
            · simp [h1, h2, he, ActivityState.failedPermanent, ActivityState.failedTemporary] at h
            · simp [h1, h2, he] at h
        · simp [he] at h
      · rcases e2 with _ | e
        · by_cases h1 : a2.state = ActivityState.failedPermanent
          · simp only [h1, if_pos, he, Bool.false_eq_true, if_false] at h ⊢
            right; left
            simp [setWorkflowStateOp]
          · by_cases h2 : a2.state = ActivityState.failedTemporary
            · simp only [h1, h2, if_neg, if_pos, he, Bool.false_eq_true, if_false] at h ⊢
              right; right
              simp [h1, setWorkflowStateOp, ActivityState.failedPermanent,
                ActivityState.failedTemporary]
            · simp only [h1, h2, if_neg, he, Bool.false_eq_true, if_false] at h ⊢
              exact ih st2 (by simpa using h)
        · simp [he] at h

theorem rollbackLoop_states (env : Env) (notif : Option NotifierModel) :
    ∀ (us : List String) (st : ExecState),
      (rollbackLoop env notif us st).2 = none →
      (rollbackLoop env notif us st).1.workflow.state = WorkflowState.failed ∨
      (rollbackLoop env notif us st).1.workflow.state = WorkflowState.failedRollback ∨
      (rollbackLoop env notif us st).1.workflow.state = WorkflowState.runningRetry := by
  intro us
  induction us with
  | nil =>
    intro st _
    left
    simp [rollbackLoop, setWorkflowStateOp]
  | cons u rest ih =>
    intro st h
    cases hf : findActivity? st.activities u with
    | none => simp [rollbackLoop, hf] at h
    | some a =>
      by_cases hsk : a.state = ActivityState.succeeded
      · by_cases hb : notifBeginActivityFails notif
        · simp [rollbackLoop, hf, hsk, hb] at h
        · simp only [rollbackLoop, hf, hsk, ne_eq, not_true_eq_false, if_false, hb,
            Bool.false_eq_true] at h ⊢
          rcases hv : invokeActivity env.activityPlugins env.now "rollback"
            (activityCreate env.now st ("rollback:" ++ u)).1
            (activityCreate env.now st ("rollback:" ++ u)).2 with ⟨st2, a2, e2⟩
          rw [hv] at h
          by_cases he : notifEndActivityFails notif
          · rcases e2 with _ | e
            · by_cases h1 : a2.state = ActivityState.failedPermanent
              · simp [h1, he] at h
              · by_cases h2 : a2.state = ActivityState.failedTemporary
                · simp [h1, h2, he, ActivityState.failedPermanent,
                    ActivityState.failedTemporary] at h
                · simp [h1, h2, he] at h
            · simp [he] at h
          · rcases e2 with _ | e
            · by_cases h1 : a2.state = ActivityState.failedPermanent
              · simp only [h1, if_pos, he, Bool.false_eq_true, if_false] at h ⊢
                right; left
                simp [setWorkflowStateOp]
              · by_cases h2 : a2.state = ActivityState.failedTemporary
                · simp only [h1, h2, if_neg, if_pos, he, Bool.false_eq_true, if_false] at h ⊢
                  right; right
                  simp [h1, setWorkflowStateOp, ActivityState.failedPermanent,
                    ActivityState.failedTemporary]
                · simp only [h1, h2, if_neg, he, Bool.false_eq_true, if_false] at h ⊢
                  exact ih st2 (by simpa using h)
            · simp [he] at h
      · simp only [rollbackLoop, hf, hsk, ne_eq, not_false_eq_true, if_true] at h ⊢
        exact ih st (by simpa using h)

theorem handlePendingW_states (env : Env) (st : ExecState)
    (h : (handlePendingW env st).2 = none) :
    (handlePendingW env st).1.workflow.state = WorkflowState.failed ∨
    (handlePendingW env st).1.workflow.state = WorkflowState.running := by
  by_cases hp : st.workflow.activityTypes = []
  · cases hl : lookupWorkflowPlugin env.workflowPlugins (firstColonSegment st.workflow.type) with
    | none => simp [handlePendingW, hp, hl] at h
    | some p =>
      by_cases hplan : p.planResult = []
      · left
        simp [handlePendingW, hp, hl, hplan, setWorkflowStateOp]
      · right
        simp [handlePendingW, hp, hl, hplan, setWorkflowStateOp]
  · right
    simp [handlePendingW, hp, setWorkflowStateOp]

theorem convergeW_states (env : Env) (notif : Option NotifierModel) :
    ∀ (fuel : Nat) (st : ExecState),
      workflowStateValid st.workflow.state = true →
      (convergeW env notif fuel st).2 = none →
      (convergeW env notif fuel st).1.workflow.state = WorkflowState.queued ∨
      (convergeW env notif fuel st).1.workflow.state = WorkflowState.succeeded ∨
      (convergeW env notif fuel st).1.workflow.state = WorkflowState.failed ∨
      (convergeW env notif fuel st).1.workflow.state = WorkflowState.failedRollback := by
  intro fuel
  induction fuel with
  | zero => intro st _ h; simp [convergeW] at h
  | succ n ih =>
    intro st hvalid h
    by_cases h1 : st.workflow.state = WorkflowState.queued
    · simp [convergeW, h1, WorkflowState.queued] at h
    · by_cases h2 : st.workflow.state = WorkflowState.pending
      · rw [convergeW_pending env notif n st h2] at h ⊢
        rcases hp : handlePendingW env st with ⟨stp, ep⟩
        rw [hp] at h
        rcases ep with _ | e
        · simp only [andThenE] at h ⊢
          have hs := handlePendingW_states env st (by rw [hp])
          rw [hp] at hs
          simp only at hs
          have hv2 : workflowStateValid stp.workflow.state = true := by
            rcases hs with hs | hs <;> rw [hs] <;> decide
          exact ih stp hv2 h
        · simp [andThenE] at h
      · by_cases h3 : st.workflow.state = WorkflowState.running
        · rw [convergeW_running env notif n st h3] at h ⊢
          rcases hp : handleRunningW env notif st with ⟨stp, ep⟩
          rw [hp] at h
          rcases ep with _ | e
          · simp only [andThenE] at h ⊢
            have hs := forwardLoop_states env notif st.workflow.activityTypes st
              (by rw [show forwardLoop env notif st.workflow.activityTypes st = handleRunningW env notif st from rfl, hp])
            rw [show forwardLoop env notif st.workflow.activityTypes st = handleRunningW env notif st from rfl, hp] at hs
            simp only at hs
            have hv2 : workflowStateValid stp.workflow.state = true := by
              rcases hs with hs | hs | hs <;> rw [hs] <;> decide
            exact ih stp hv2 h
          · simp [andThenE] at h
        · by_cases h4 : st.workflow.state = WorkflowState.runningRetry
          · rw [convergeW_retry env notif n st h4] at h ⊢
            left
            simp [handleRunningRetryW, setWorkflowStateOp, updateWorkflowOp]
          · by_cases h5 : st.workflow.state = WorkflowState.runningRollback
            · rw [convergeW_rollback env notif n st h5] at h ⊢
              rcases hp : handleRunningRollbackW env notif st with ⟨stp, ep⟩
              rw [hp] at h
              rcases ep with _ | e
              · simp only [andThenE] at h ⊢
                have hs := rollbackLoop_states env notif st.workflow.activityTypes.reverse st
                  (by rw [show rollbackLoop env notif st.workflow.activityTypes.reverse st = handleRunningRollbackW env notif st from rfl, hp])
                rw [show rollbackLoop env notif st.workflow.activityTypes.reverse st = handleRunningRollbackW env notif st from rfl, hp] at hs
                simp only at hs
                have hv2 : workflowStateValid stp.workflow.state = true := by
                  rcases hs with hs | hs | hs <;> rw [hs] <;> decide
                exact ih stp hv2 h
              · simp [andThenE] at h
            · have hexit : convergeW env notif (n + 1) st = (st, none) := by
                simp [convergeW, h1, h2, h3, h4, h5]
              rw [hexit]
              simp only [workflowStateValid, Bool.or_eq_true, beq_iff_eq] at hvalid
              simp only [WorkflowState.queued, WorkflowState.pending, WorkflowState.running,
                WorkflowState.runningRetry, WorkflowState.runningRollback, WorkflowState.failed,
                WorkflowState.failedRollback, WorkflowState.succeeded] at hvalid h1 h2 h3 h4 h5 ⊢
              tauto

/-- C10: whenever `execute` returns without throwing (for any plugins,
notifier, fuel and initial state carrying one of the eight workflow
states), the workflow ends in `queued`, `succeeded`, `failed` or
`failed_rollback`, and never in `pending`, `running`, `running_retry` or
`running_rollback`. -/
theorem c10_normal_return_states (env : Env) (notif : Option NotifierModel)
    (fuel : Nat) (st : ExecState)
    (hvalid : workflowStateValid st.workflow.state = true)
    (h : (executeW env notif fuel st).2 = none) :
    ((executeW env notif fuel st).1.workflow.state = WorkflowState.queued ∨
     (executeW env notif fuel st).1.workflow.state = WorkflowState.succeeded ∨
     (executeW env notif fuel st).1.workflow.state = WorkflowState.failed ∨
     (executeW env notif fuel st).1.workflow.state = WorkflowState.failedRollback) ∧
    (executeW env notif fuel st).1.workflow.state ≠ WorkflowState.pending ∧
    (executeW env notif fuel st).1.workflow.state ≠ WorkflowState.running ∧
    (executeW env notif fuel st).1.workflow.state ≠ WorkflowState.runningRetry ∧
    (executeW env notif fuel st).1.workflow.state ≠ WorkflowState.runningRollback := by
  have hmain : (executeW env notif fuel st).1.workflow.state = WorkflowState.queued ∨
      (executeW env notif fuel st).1.workflow.state = WorkflowState.succeeded ∨
      (executeW env notif fuel st).1.workflow.state = WorkflowState.failed ∨
      (executeW env notif fuel st).1.workflow.state = WorkflowState.failedRollback := by
    by_cases hl : st.workflow.id ∈ st.locks
    · simp [executeW, lockWorkflowOp, hl] at h
    · by_cases hbw : notifBeginWorkflowFails notif
      · by_cases hew : notifEndWorkflowFails notif <;>
          simp [executeW, lockWorkflowOp, hl, hbw, hew] at h
      · by_cases hew : notifEndWorkflowFails notif
        · simp [executeW, lockWorkflowOp, hl, hbw, hew] at h
        · have h2 : (convergeW env notif fuel { st with locks := st.workflow.id :: st.locks }).2 = none := by
            simpa [executeW, lockWorkflowOp, hl, hbw, hew] using h
          have hs := convergeW_states env notif fuel
            ({ st with locks := st.workflow.id :: st.locks }) hvalid h2
          simpa [executeW, lockWorkflowOp, hl, hbw, hew, unlockWorkflowOp] using hs
  refine ⟨hmain, ?_, ?_, ?_, ?_⟩ <;>
    rcases hmain with hm | hm | hm | hm <;> rw [hm] <;> decide

theorem forwardLoop_locks_id (env : Env) (notif : Option NotifierModel) :
    ∀ (us : List String) (st : ExecState),
      (forwardLoop env notif us st).1.locks = st.locks ∧
      (forwardLoop env notif us st).1.workflow.id = st.workflow.id := by
  intro us
  induction us with
  | nil =>
    intro st
    constructor <;> simp [forwardLoop, setWorkflowStateOp]
  | cons u rest ih =>
    intro st
    have hc := activityCreate_preserves env.now st u
    by_cases hb : notifBeginActivityFails notif
    · constructor <;> simp [forwardLoop, hb, hc.1, hc.2.1]
    · simp only [forwardLoop, hb, Bool.false_eq_true, if_false]
      rcases hv : invokeActivity env.activityPlugins env.now "execute"
        (activityCreate env.now st u).1 (activityCreate env.now st u).2 with ⟨st2, a2, e2⟩
      have hi := invokeActivity_preserves env.activityPlugins env.now "execute"
        (activityCreate env.now st u).1 (activityCreate env.now st u).2
      rw [hv] at hi
      simp only at hi
      have hw2 : st2.workflow = st.workflow := hi.1.trans hc.1
      have hl2 : st2.locks = st.locks := hi.2.trans hc.2.1
      by_cases he : notifEndActivityFails notif
      · rcases e2 with _ | e
        · by_cases h1 : a2.state = ActivityState.failedPermanent
          · constructor <;> simp [h1, he, setWorkflowStateOp, hl2, hw2]
          · by_cases h2 : a2.state = ActivityState.failedTemporary
            · constructor <;>
                simp [h1, h2, he, setWorkflowStateOp, hl2, hw2,
                  ActivityState.failedPermanent, ActivityState.failedTemporary]
            · constructor <;> simp [h1, h2, he, hl2, hw2]
        · constructor <;> simp [he, hl2, hw2]
      · rcases e2 with _ | e
        · by_cases h1 : a2.state = ActivityState.failedPermanent
          · constructor <;> simp [h1, he, setWorkflowStateOp, hl2, hw2]
          · by_cases h2 : a2.state = ActivityState.failedTemporary
            · constructor <;>
                simp [h1, h2, he, setWorkflowStateOp, hl2, hw2,
                  ActivityState.failedPermanent, ActivityState.failedTemporary]
            · simp only [h1, h2, if_neg, he, Bool.false_eq_true, if_false]
              constructor
              · exact ((ih st2).1).trans hl2
              · exact ((ih st2).2).trans (by rw [hw2])
        · constructor <;> simp [he, hl2, hw2]

theorem rollbackLoop_locks_id (env : Env) (notif : Option NotifierModel) :
    ∀ (us : List String) (st : ExecState),
      (rollbackLoop env notif us st).1.locks = st.locks ∧
      (rollbackLoop env notif us st).1.workflow.id = st.workflow.id := by
  intro us
  induction us with
  | nil =>
    intro st
    constructor <;> simp [rollbackLoop, setWorkflowStateOp]
  | cons u rest ih =>
    intro st
    cases hf : findActivity? st.activities u with
    | none => constructor <;> simp [rollbackLoop, hf]
    | some a =>
      by_cases hsk : a.state = ActivityState.succeeded
      · have hc := activityCreate_preserves env.now st ("rollback:" ++ u)
        by_cases hb : notifBeginActivityFails notif
        · constructor <;> simp [rollbackLoop, hf, hsk, hb, hc.1, hc.2.1]
        · simp only [rollbackLoop, hf, hsk, ne_eq, not_true_eq_false, if_false, hb,
            Bool.false_eq_true]
          rcases hv : invokeActivity env.activityPlugins env.now "rollback"
            (activityCreate env.now st ("rollback:" ++ u)).1
            (activityCreate env.now st ("rollback:" ++ u)).2 with ⟨st2, a2, e2⟩
          have hi := invokeActivity_preserves env.activityPlugins env.now "rollback"
            (activityCreate env.now st ("rollback:" ++ u)).1
            (activityCreate env.now st ("rollback:" ++ u)).2
          rw [hv] at hi
          simp only at hi
          have hw2 : st2.workflow = st.workflow := hi.1.trans hc.1
          have hl2 : st2.locks = st.locks := hi.2.trans hc.2.1
          by_cases he : notifEndActivityFails notif
          · rcases e2 with _ | e
            · by_cases h1 : a2.state = ActivityState.failedPermanent
              · constructor <;> simp [h1, he, setWorkflowStateOp, hl2, hw2]
              · by_cases h2 : a2.state = ActivityState.failedTemporary
                · constructor <;>
                    simp [h1, h2, he, setWorkflowStateOp, hl2, hw2,
                      ActivityState.failedPermanent, ActivityState.failedTemporary]
                · constructor <;> simp [h1, h2, he, hl2, hw2]
            · constructor <;> simp [he, hl2, hw2]
          · rcases e2 with _ | e
            · by_cases h1 : a2.state = ActivityState.failedPermanent
              · constructor <;> simp [h1, he, setWorkflowStateOp, hl2, hw2]
              · by_cases h2 : a2.state = ActivityState.failedTemporary
                · constructor <;>
                    simp [h1, h2, he, setWorkflowStateOp, hl2, hw2,
                      ActivityState.failedPermanent, ActivityState.failedTemporary]
                · simp only [h1, h2, if_neg, he, Bool.false_eq_true, if_false]
                  constructor
                  · exact ((ih st2).1).trans hl2
                  · exact ((ih st2).2).trans (by rw [hw2])
            · constructor <;> simp [he, hl2, hw2]
      · simp only [rollbackLoop, hf, hsk, ne_eq, not_false_eq_true, if_true]
        exact ih st

theorem convergeW_locks_id (env : Env) (notif : Option NotifierModel) :
    ∀ (fuel : Nat) (st : ExecState),
      (convergeW env notif fuel st).1.locks = st.locks ∧
      (convergeW env notif fuel st).1.workflow.id = st.workflow.id := by
  intro fuel
  induction fuel with
  | zero => intro st; exact ⟨rfl, rfl⟩
  | succ n ih =>
    intro st
    by_cases h1 : st.workflow.state = WorkflowState.queued
    · constructor <;> simp [convergeW, h1, WorkflowState.queued]
    · by_cases h2 : st.workflow.state = WorkflowState.pending
      · rw [convergeW_pending env notif n st h2]
        rcases hp : handlePendingW env st with ⟨stp, ep⟩
        have hpl : stp.locks = st.locks ∧ stp.workflow.id = st.workflow.id := by
          have hh : (handlePendingW env st).1.locks = st.locks ∧
              (handlePendingW env st).1.workflow.id = st.workflow.id := by
            by_cases hp2 : st.workflow.activityTypes = []
            · cases hl : lookupWorkflowPlugin env.workflowPlugins (firstColonSegment st.workflow.type) with
              | none => constructor <;> simp [handlePendingW, hp2, hl]
              | some p =>
                by_cases hplan : p.planResult = []
                · constructor <;>
                    simp [handlePendingW, hp2, hl, hplan, setWorkflowStateOp, updateWorkflowOp]
                · constructor <;>
                    simp [handlePendingW, hp2, hl, hplan, setWorkflowStateOp, updateWorkflowOp]
            · constructor <;> simp [handlePendingW, hp2, setWorkflowStateOp]
          rw [hp] at hh
          exact hh
        rcases ep with _ | e
        · simp only [andThenE]
          exact ⟨((ih stp).1).trans hpl.1, ((ih stp).2).trans hpl.2⟩
        · simp only [andThenE]
          exact hpl
      · by_cases h3 : st.workflow.state = WorkflowState.running
        · rw [convergeW_running env notif n st h3]
          rcases hp : handleRunningW env notif st with ⟨stp, ep⟩
          have hfl := forwardLoop_locks_id env notif st.workflow.activityTypes st
          rw [show forwardLoop env notif st.workflow.activityTypes st = handleRunningW env notif st from rfl, hp] at hfl
          simp only at hfl
          rcases ep with _ | e
          · simp only [andThenE]
            exact ⟨((ih stp).1).trans hfl.1, ((ih stp).2).trans hfl.2⟩
          · simp only [andThenE]
            exact hfl
        · by_cases h4 : st.workflow.state = WorkflowState.runningRetry
          · rw [convergeW_retry env notif n st h4]
            constructor <;> simp [handleRunningRetryW, setWorkflowStateOp, updateWorkflowOp]
          · by_cases h5 : st.workflow.state = WorkflowState.runningRollback
            · rw [convergeW_rollback env notif n st h5]
              rcases hp : handleRunningRollbackW env notif st with ⟨stp, ep⟩
              have hfl := rollbackLoop_locks_id env notif st.workflow.activityTypes.reverse st
              rw [show rollbackLoop env notif st.workflow.activityTypes.reverse st = handleRunningRollbackW env notif st from rfl, hp] at hfl
              simp only at hfl
              rcases ep with _ | e
              · simp only [andThenE]
                exact ⟨((ih stp).1).trans hfl.1, ((ih stp).2).trans hfl.2⟩
              · simp only [andThenE]
                exact hfl
            · constructor <;> simp [convergeW, h1, h2, h3, h4, h5]

/-- C9 (amended): once `execute` acquires the workflow lock, it releases
it on every exit, for every notifier, including runs in which a notifier
hook failure propagates; hook failures can however change the persisted
workflow state (see the counterexample), so outcomes are not preserved. -/
theorem c9_lock_released_always (env : Env) (notif : Option NotifierModel)
    (fuel : Nat) (st : ExecState) (h : st.workflow.id ∉ st.locks) :
    ((executeW env notif fuel st).1.locks).contains st.workflow.id = false := by
  have hc : st.locks.contains st.workflow.id = false := by
    simpa using h
  simp only [executeW, lockWorkflowOp, hc, Bool.false_eq_true, if_false]
  have hcv := convergeW_locks_id env notif fuel ({ st with locks := st.workflow.id :: st.locks })
  simp only at hcv
  by_cases hbw : notifBeginWorkflowFails notif
  · by_cases hew : notifEndWorkflowFails notif <;>
      · simp only [hbw, hew, if_true, Bool.false_eq_true, if_false, unlockWorkflowOp]
        exact contains_filter_bne _ _
  · by_cases hew : notifEndWorkflowFails notif <;>
      · simp only [hbw, hew, if_true, Bool.false_eq_true, if_false, unlockWorkflowOp]
        rw [hcv.1, hcv.2]
        exact contains_filter_bne _ _

theorem memGetExecutableWorkflows_spec (cutoff : Int) :
    ∀ (table : List Workflow) (limit : Nat),
      (memGetExecutableWorkflows cutoff limit table).length ≤ limit ∧
      (∀ w ∈ memGetExecutableWorkflows cutoff limit table,
        w.state = WorkflowState.queued ∧ ∃ e, w.executeAt = some e ∧ e < cutoff) := by
  intro table
  induction table with
  | nil => intro limit; constructor <;> simp [memGetExecutableWorkflows]
  | cons w ws ih =>
    intro limit
    by_cases hc : (limit != 0 && w.state == WorkflowState.queued &&
        (match w.executeAt with
         | some e => decide (e < cutoff)
         | none => false)) = true
    · have hcond := hc
      simp only [Bool.and_eq_true, bne_iff_ne, beq_iff_eq, ne_eq] at hcond
      rcases he : w.executeAt with _ | e
      · rw [he] at hcond
        simp at hcond
      · rw [he] at hcond
        simp only [decide_eq_true_eq] at hcond
        simp only [memGetExecutableWorkflows, hc, if_true]
        constructor
        · have h1 := (ih (limit - 1)).1
          have hl0 : ¬ limit = 0 := hcond.1.1
          simp only [List.length_cons]
          omega
        · intro w2 hw2
          rcases List.mem_cons.mp hw2 with rfl | hw2
          · exact ⟨hcond.1.2, e, he, hcond.2⟩
          · exact (ih (limit - 1)).2 w2 hw2
    · simp only [memGetExecutableWorkflows]
      rw [if_neg hc]
      exact ih limit

theorem pgSelectExecutableWorkflows_spec (now cutoff : Int) (limit : Nat)
    (table : List Workflow) :
    (pgSelectExecutableWorkflows now cutoff limit table).length ≤ limit ∧
    (∀ w ∈ pgSelectExecutableWorkflows now cutoff limit table,
      w.state = WorkflowState.pending ∧
      ∃ w0, w0 ∈ table ∧ w0.state = WorkflowState.queued ∧
        (∃ e, w0.executeAt = some e ∧ e ≤ cutoff) ∧
        w = { w0 with state := WorkflowState.pending, updatedAt := now }) := by
  constructor
  · simp only [pgSelectExecutableWorkflows, List.length_map]
    exact List.length_take_le _ _
  · intro w hw
    simp only [pgSelectExecutableWorkflows, List.mem_map] at hw
    obtain ⟨w0, hw0, rfl⟩ := hw
    have hw0f : w0 ∈ table.filter (pgExecutableFilter cutoff) := List.mem_of_mem_take hw0
    have hf := List.of_mem_filter hw0f
    have hmem := List.mem_of_mem_filter hw0f
    simp only [pgExecutableFilter, Bool.and_eq_true, beq_iff_eq] at hf
    rcases he : w0.executeAt with _ | e
    · rw [he] at hf
      simp at hf
    · rw [he] at hf
      simp only [decide_eq_true_eq] at hf
      exact ⟨rfl, w0, hmem, hf.2, ⟨e, he, hf.1⟩, by rw [he]⟩

/-- C3 (amended): both implementations return at most `limit` workflows
that had state `queued` and a non-null `executeAt`; but the in-memory
store filters `executeAt < cutoff` strictly and returns the rows still in
state `queued`, while the persistent query filters `executeAt <= cutoff`
and returns the rows transitioned to `pending`, so the two are not
observationally equivalent for this operation. -/
theorem c3_amended_executable_selection (now cutoff : Int) (limit : Nat)
    (table : List Workflow) :
    (memGetExecutableWorkflows cutoff limit table).length ≤ limit ∧
    (∀ w ∈ memGetExecutableWorkflows cutoff limit table,
      w.state = WorkflowState.queued ∧ ∃ e, w.executeAt = some e ∧ e < cutoff) ∧
    (pgSelectExecutableWorkflows now cutoff limit table).length ≤ limit ∧
    (∀ w ∈ pgSelectExecutableWorkflows now cutoff limit table,
      w.state = WorkflowState.pending ∧
      ∃ w0, w0 ∈ table ∧ w0.state = WorkflowState.queued ∧
        (∃ e, w0.executeAt = some e ∧ e ≤ cutoff) ∧
        w = { w0 with state := WorkflowState.pending, updatedAt := now }) :=
  ⟨(memGetExecutableWorkflows_spec cutoff table limit).1,
   (memGetExecutableWorkflows_spec cutoff table limit).2,
   (pgSelectExecutableWorkflows_spec now cutoff limit table).1,
   (pgSelectExecutableWorkflows_spec now cutoff limit table).2⟩

/-- Counterexample for C3 as stated: the in-memory store returns a
workflow still in state `queued` (never `pending`), and at
`executeAt = cutoff` the in-memory store returns nothing while the
persistent query returns the row (as `pending`). -/
theorem c3_counterexample :
    memGetExecutableWorkflows 100 1 [sampleWorkflow WorkflowState.queued (some 50)] =
      [sampleWorkflow WorkflowState.queued (some 50)] ∧
    (sampleWorkflow WorkflowState.queued (some 50)).state ≠ WorkflowState.pending ∧
    memGetExecutableWorkflows 100 1 [sampleWorkflow WorkflowState.queued (some 100)] = [] ∧
    pgSelectExecutableWorkflows 7 100 1 [sampleWorkflow WorkflowState.queued (some 100)] =
      [{ (sampleWorkflow WorkflowState.queued (some 100)) with state := WorkflowState.pending, updatedAt := 7 }] := by
  decide

/-- Witness for C3's amended theorem at a concrete one-row table. -/
theorem c3_witness :
    (memGetExecutableWorkflows 100 1 [sampleWorkflow WorkflowState.queued (some 50)]).length ≤ 1 ∧
    (pgSelectExecutableWorkflows 7 100 1 [sampleWorkflow WorkflowState.queued (some 50)]).length ≤ 1 := by
  have A := c3_amended_executable_selection 7 100 1 [sampleWorkflow WorkflowState.queued (some 50)]
  exact ⟨A.1, A.2.2.1⟩

/-- C4 (amended): `attempts` grows by exactly the number of
`setWorkflowState(_, running)` calls in a trace of store operations; when
no such call happens while the state is already `running` (as in every
executor-generated trace), that number equals the number of times the
state enters `running`. -/
theorem c4_attempts_counts_running_sets (now : Int) :
    ∀ (ops : List StoreOp) (w : Workflow),
      (runStoreOps now w ops).attempts = w.attempts + setRunningCount ops ∧
      (noRedundantRunningSet now w ops = true →
        setRunningCount ops = enteredRunningCount now w ops) := by
  intro ops
  induction ops with
  | nil =>
    intro w
    exact ⟨by simp [runStoreOps, setRunningCount], fun _ => rfl⟩
  | cons op rest ih =>
    intro w
    constructor
    · rcases op with s | _
      · simp only [runStoreOps, setRunningCount]
        rw [(ih _).1]
        simp only [applyStoreOp]
        omega
      · simp only [runStoreOps, setRunningCount]
        rw [(ih _).1]
        simp only [applyStoreOp]
    · intro hnr
      simp only [noRedundantRunningSet, Bool.and_eq_true] at hnr
      have h2 := (ih (applyStoreOp now w op)).2 hnr.2
      rcases op with s | _
      · by_cases hs : s = WorkflowState.running
        · subst hs
          have hguard : (!(WorkflowState.running == WorkflowState.running &&
              w.state == WorkflowState.running)) = true := hnr.1
          have hwr : ¬ w.state = WorkflowState.running := by
            simp only [beq_self_eq_true, Bool.true_and, Bool.not_eq_true',
              beq_eq_false_iff_ne, ne_eq] at hguard
            exact hguard
          simp only [setRunningCount, enteredRunningCount, applyStoreOp] at h2 ⊢
          simp [hwr, h2]
        · simp only [setRunningCount, enteredRunningCount, applyStoreOp] at h2 ⊢
          simp [hs, h2]
      · simp only [setRunningCount, enteredRunningCount, applyStoreOp] at h2 ⊢
        simp [h2]

/-- Counterexample for C4 as stated: two consecutive
`setWorkflowState(running)` calls increment `attempts` twice while the
state enters `running` only once. -/
theorem c4_counterexample :
    (runStoreOps 0 (sampleWorkflow WorkflowState.pending none)
      [StoreOp.setState WorkflowState.running, StoreOp.setState WorkflowState.running]).attempts = 2 ∧
    enteredRunningCount 0 (sampleWorkflow WorkflowState.pending none)
      [StoreOp.setState WorkflowState.running, StoreOp.setState WorkflowState.running] = 1 ∧
    (sampleWorkflow WorkflowState.pending none).attempts = 0 ∧
    (2 : Nat) ≠ 0 + 1 := by
  decide

/-- Witness for C4's amended theorem on a concrete redundancy-free trace. -/
theorem c4_witness :
    (runStoreOps 0 (sampleWorkflow WorkflowState.pending none)
      [StoreOp.setState WorkflowState.running, StoreOp.update]).attempts =
      (sampleWorkflow WorkflowState.pending none).attempts +
        setRunningCount [StoreOp.setState WorkflowState.running, StoreOp.update] ∧
    setRunningCount [StoreOp.setState WorkflowState.running, StoreOp.update] =
      enteredRunningCount 0 (sampleWorkflow WorkflowState.pending none)
        [StoreOp.setState WorkflowState.running, StoreOp.update] := by
  have A := c4_attempts_counts_running_sets 0
    [StoreOp.setState WorkflowState.running, StoreOp.update]
    (sampleWorkflow WorkflowState.pending none)
  exact ⟨A.1, A.2 (by decide)⟩

theorem dropFirstOccur_self_append (pat rest : List Char) (h : pat ≠ []) :
    dropFirstOccur pat (pat ++ rest) = rest := by
  cases pat with
  | nil => exact absurd rfl h
  | cons c cs =>
    have ht := List.take_left (c :: cs) rest
    have hd := List.drop_left (c :: cs) rest
    simp only [List.cons_append] at ht hd ⊢
    rw [dropFirstOccur, if_pos ht.symm]
    exact hd

/-- Counterexample for C6 as stated: for `xrollback:y`, whose `rollback:`
substring is not a leading prefix, the source removes the substring
(yielding plugin key `xy`), whereas the spec's leading-prefix-only
normalization would keep it (yielding `xrollback`). -/
theorem c6_counterexample :
    normalizeActivityType "xrollback:y" = "xy" ∧
    specNormalizeActivityType "xrollback:y" = "xrollback" ∧
    normalizeActivityType "xrollback:y" ≠ specNormalizeActivityType "xrollback:y" := by
  decide

/-- C6 (amended): plugin selection removes the FIRST occurrence of the
substring `rollback:` anywhere in the activity type (JS `replace`
semantics), not only a leading prefix, then takes the substring before the
first colon; `foo`, `foo:meta` and `rollback:foo:meta` all resolve to
`foo`, and an unresolved plugin makes the invocation fail with
`unknown activity plugin: <type>`. -/
theorem c6_amended_normalization :
    (∀ s : String, normalizeActivityType ("rollback:" ++ s) = firstColonSegment s) ∧
    normalizeActivityType "foo" = "foo" ∧
    normalizeActivityType "foo:meta" = "foo" ∧
    normalizeActivityType "rollback:foo:meta" = "foo" ∧
    normalizeActivityType "xrollback:y" = "xy" ∧
    (∀ (reg : List ActivityPluginModel) (now : Int) (op : String) (st : ExecState) (a : Activity),
      lookupPlugin reg (normalizeActivityType a.type) = none →
      invokeActivity reg now op st a = (st, a, some ("unknown activity plugin: " ++ a.type))) := by
  refine ⟨?_, by decide, by decide, by decide, by decide, ?_⟩
  · intro s
    have hd : ("rollback:" ++ s).data = "rollback:".data ++ s.data := string_data_append _ _
    unfold normalizeActivityType
    rw [hd, dropFirstOccur_self_append _ _ (by decide)]
    rfl
  · intro reg now op st a h
    simp [invokeActivity, h]

/-- Witness for C6's amended theorem at concrete inputs. -/
theorem c6_witness :
    normalizeActivityType ("rollback:" ++ "q:meta") = firstColonSegment "q:meta" ∧
    invokeActivity ([] : List ActivityPluginModel) 0 "execute" c1State
      (activityRec "zzz" ActivityState.pending) =
      (c1State, activityRec "zzz" ActivityState.pending,
        some ("unknown activity plugin: " ++ (activityRec "zzz" ActivityState.pending).type)) := by
  have A := c6_amended_normalization
  exact ⟨A.1 "q:meta", A.2.2.2.2.2 [] 0 "execute" c1State (activityRec "zzz" ActivityState.pending) rfl⟩

/-- C7: the in-memory store's lock-contention error interpolates the
workflow's actual type, but the SQL layer hard-codes the literal
`workflow-type`, so for a workflow of type `other-type` the two stores
produce different messages and only the in-memory one matches the
required literal form `workflow <type> already locked (<id>)`; both
stores do fail exactly when the lock is already held. -/
theorem c7_lock_message_divergence :
    memLockWorkflow ["wf-1"] { (sampleWorkflow WorkflowState.pending none) with type := "other-type" } =
      Except.error "workflow other-type already locked (wf-1)" ∧
    pgLockWorkflow ["wf-1"] { (sampleWorkflow WorkflowState.pending none) with type := "other-type" } =
      Except.error "workflow workflow-type already locked (wf-1)" ∧
    ("workflow other-type already locked (wf-1)" : String) ≠
      "workflow workflow-type already locked (wf-1)" ∧
    memLockWorkflow [] { (sampleWorkflow WorkflowState.pending none) with type := "other-type" } =
      Except.ok ["wf-1"] ∧
    pgLockWorkflow [] { (sampleWorkflow WorkflowState.pending none) with type := "other-type" } =
      Except.ok ["wf-1"] :=
  ⟨rfl, rfl, by decide, rfl, rfl⟩

/-- Whenever `lookback < cutoff` (in particular at the defaults 5000 and
7200000), the persistent lost-workflow query is unsatisfiable and returns
nothing. -/
theorem pgSelectLostWorkflows_dead (now lookback cutoff : Int) (limit : Nat)
    (table : List Workflow) (h : lookback < cutoff) :
    pgSelectLostWorkflows now lookback cutoff limit table = [] := by
  have hf : table.filter (fun w =>
      isInFlightState w.state &&
      decide (now - lookback ≤ w.createdAt) && decide (w.createdAt ≤ now - cutoff) &&
      (match w.executeAt with
       | some e => decide (e < now - cutoff)
       | none => false)) = [] := by
    rw [List.filter_eq_nil_iff]
    intro w _ hw
    simp only [Bool.and_eq_true, decide_eq_true_eq] at hw
    have h1 := hw.1.1.2
    have h2 := hw.1.2
    omega
  simp only [pgSelectLostWorkflows]
  rw [hf]
  simp

/-- C8: a workflow meeting every condition of the claim (in-flight state,
`createdAt` inside `[now - cutoffMs, now - lookbackMs]` at the defaults,
`executeAt` before `now - lookbackMs`) is returned by neither
implementation: the persistent query's BETWEEN bounds are swapped
(start = now - lookback, end = now - cutoff), and the in-memory store
filters on `updatedAt` older than ten minutes instead. -/
theorem c8_lost_selection_divergence :
    isInFlightState lostSampleWorkflow.state = true ∧
    10000000 - defaultGcCutoffMilliseconds ≤ lostSampleWorkflow.createdAt ∧
    lostSampleWorkflow.createdAt ≤ 10000000 - defaultGcLookbackMilliseconds ∧
    lostSampleWorkflow.executeAt = some 9990000 ∧
    (9990000 : Int) < 10000000 - defaultGcLookbackMilliseconds ∧
    pgSelectLostWorkflows 10000000 defaultGcLookbackMilliseconds
      defaultGcCutoffMilliseconds 5 [lostSampleWorkflow] = [] ∧
    memGetLostWorkflows 10000000 5 [lostSampleWorkflow] = [] := by
  decide

/-- Counterexample for C9 as stated: with a notifier whose
`beginWorkflow` hook fails, `execute` propagates the failure and leaves
the workflow in `pending`, whereas the same run with no notifier ends in
`succeeded`; so a hook failure does affect the persisted outcome. -/
theorem c9_counterexample :
    (executeW (demoEnv [pluginOkA]) none 10 (demoState WorkflowState.pending [])).2 = none ∧
    (executeW (demoEnv [pluginOkA]) none 10 (demoState WorkflowState.pending [])).1.workflow.state =
      WorkflowState.succeeded ∧
    (executeW (demoEnv [pluginOkA]) (some notifierBeginFails) 10 (demoState WorkflowState.pending [])).1.workflow.state =
      WorkflowState.pending ∧
    (executeW (demoEnv [pluginOkA]) (some notifierBeginFails) 10 (demoState WorkflowState.pending [])).2 =
      some (notifierFailureMessage "beginWorkflow") ∧
    WorkflowState.pending ≠ WorkflowState.succeeded := by
  decide

/-- Witness for C9's amended theorem at the counterexample's inputs. -/
theorem c9_witness :
    ((executeW (demoEnv [pluginOkA]) (some notifierBeginFails) 10
        (demoState WorkflowState.pending [])).1.locks).contains
      (demoState WorkflowState.pending []).workflow.id = false := by
  exact c9_lock_released_always (demoEnv [pluginOkA]) (some notifierBeginFails) 10
    (demoState WorkflowState.pending []) (by decide)

/-- Witness for C10 on a concrete successful run. -/
theorem c10_witness :
    ((executeW (demoEnv [pluginOkA]) none 10 (demoState WorkflowState.pending [])).1.workflow.state = WorkflowState.queued ∨
     (executeW (demoEnv [pluginOkA]) none 10 (demoState WorkflowState.pending [])).1.workflow.state = WorkflowState.succeeded ∨
     (executeW (demoEnv [pluginOkA]) none 10 (demoState WorkflowState.pending [])).1.workflow.state = WorkflowState.failed ∨
     (executeW (demoEnv [pluginOkA]) none 10 (demoState WorkflowState.pending [])).1.workflow.state = WorkflowState.failedRollback) ∧
    (executeW (demoEnv [pluginOkA]) none 10 (demoState WorkflowState.pending [])).1.workflow.state ≠ WorkflowState.pending ∧
    (executeW (demoEnv [pluginOkA]) none 10 (demoState WorkflowState.pending [])).1.workflow.state ≠ WorkflowState.running ∧
    (executeW (demoEnv [pluginOkA]) none 10 (demoState WorkflowState.pending [])).1.workflow.state ≠ WorkflowState.runningRetry ∧
    (executeW (demoEnv [pluginOkA]) none 10 (demoState WorkflowState.pending [])).1.workflow.state ≠ WorkflowState.runningRollback := by
  exact c10_normal_return_states (demoEnv [pluginOkA]) none 10
    (demoState WorkflowState.pending []) (by decide) (by decide)

/-- Witness for C2 at a concrete two-activity plan where `a` succeeded and
`b` failed permanently. -/
theorem c2_witness :
    (handleRunningRollbackW (demoEnv [pluginOkA]) none rollbackDemoState).2 = none ∧
    (handleRunningRollbackW (demoEnv [pluginOkA]) none rollbackDemoState).1.workflow.state =
      WorkflowState.failed ∧
    (handleRunningRollbackW (demoEnv [pluginOkA]) none rollbackDemoState).1.log =
      rollbackDemoState.log ++
        ((rollbackDemoState.workflow.activityTypes.reverse.filter
          (fun u => sfDemo u == ActivityState.succeeded)).map rollbackExecEvent) := by
  have A := c2_rollback_reverse_skip_failed (demoEnv [pluginOkA]) rollbackDemoState sfDemo
    rfl (by decide)
    (by
      intro u hm
      simp only [rollbackDemoState, sampleWorkflow, List.mem_cons, List.not_mem_nil, or_false] at hm
      rcases hm with rfl | rfl
      · exact ⟨activityRec "a" ActivityState.succeeded, by decide, by decide⟩
      · exact ⟨activityRec "b" ActivityState.failedPermanent, by decide, by decide⟩)
    (by
      intro u hm
      simp only [rollbackDemoState, sampleWorkflow, List.mem_cons, List.not_mem_nil, or_false] at hm
      rcases hm with rfl | rfl <;> decide)
    (by
      intro u hm hsu
      simp only [rollbackDemoState, sampleWorkflow, List.mem_cons, List.not_mem_nil, or_false] at hm
      rcases hm with rfl | rfl
      · exact ⟨pluginOkA, by decide, rfl⟩
      · exact absurd hsu (by decide))
    (by decide) (by decide)
  exact ⟨A.1, A.2.1, A.2.2.1⟩

/-- Witness for C5 at a concrete single-activity plan. -/
theorem c5_witness :
    (executeW (demoEnv [pluginBoomA]) none 10 (demoState WorkflowState.pending ["a"])).2 = none ∧
    (executeW (demoEnv [pluginBoomA]) none 10 (demoState WorkflowState.pending ["a"])).1.workflow.state =
      WorkflowState.queued ∧
    (executeW (demoEnv [pluginBoomA]) none 10 (demoState WorkflowState.pending ["a"])).1.workflow.executeAt =
      some ((demoEnv [pluginBoomA]).now + (demoEnv [pluginBoomA]).retryBackoffMilliseconds) := by
  have A := c5_temporary_failure_requeues (demoEnv [pluginBoomA])
    (demoState WorkflowState.pending ["a"]) [] [] "a" pluginBoomA (TSVal.str "boom")
    rfl rfl rfl rfl rfl (by simp) (by decide) rfl (by decide) (by simp) (by simp) (by simp)
  exact ⟨A.1, A.2.1, A.2.2.1⟩

/-- C1: every activity callback invoked by the activity executor's
convergence loop in the `running` state is classified as the source does:
a normal return sets the activity to `succeeded`, a failure with the exact
sentinel value `failed_permanent` sets it to `failed_permanent`, any other
failure sets it to `failed_temporary`; in each case the updated activity
row is persisted (and the invocation is recorded). -/
theorem c1_activity_callback_classification (op pluginType : String)
    (outcome : Option TSVal) (now : Int) (st : ExecState) (a : Activity)
    (hfind : findActivity? st.activities a.type = some a) :
    (outcome = none →
      (activityHandleRunning op pluginType outcome now st a).2.state = ActivityState.succeeded) ∧
    (outcome = some (TSVal.str "failed_permanent") →
      (activityHandleRunning op pluginType outcome now st a).2.state = ActivityState.failedPermanent) ∧
    (∀ v, outcome = some v → v ≠ TSVal.str "failed_permanent" →
      (activityHandleRunning op pluginType outcome now st a).2.state = ActivityState.failedTemporary) ∧
    findActivity? (activityHandleRunning op pluginType outcome now st a).1.activities a.type =
      some (activityHandleRunning op pluginType outcome now st a).2 ∧
    (activityHandleRunning op pluginType outcome now st a).1.log =
      st.log ++ [({ op := op, pluginType := pluginType, activityType := a.type } : CallEvent)] := by
  rcases outcome with _ | v
  · refine ⟨fun _ => rfl, fun h => by simp at h, fun v hv => by simp at hv, ?_, rfl⟩
    exact findActivity?_setActivity_self st.activities _ a a.type hfind rfl
  · by_cases hv : v = TSVal.str "failed_permanent"
    · subst hv
      refine ⟨fun h => by simp at h, fun _ => ?_, fun v2 hv2 hne => ?_, ?_, rfl⟩
      · simp [activityHandleRunning, ActivityState.failedPermanent]
      · simp only [Option.some.injEq] at hv2
        exact absurd hv2.symm hne
      · exact findActivity?_setActivity_self st.activities _ a a.type hfind rfl
    · refine ⟨fun h => by simp at h, fun h => ?_, fun v2 hv2 hne => ?_, ?_, rfl⟩
      · simp only [Option.some.injEq] at h
        exact absurd h hv
      · simp only [Option.some.injEq] at hv2
        subst hv2
        simp [activityHandleRunning, hv, ActivityState.failedPermanent, ActivityState.failedTemporary]
      · exact findActivity?_setActivity_self st.activities _ a a.type hfind rfl

/-- Witness for C1 at a concrete running activity with a normal return. -/
theorem c1_witness :
    (activityHandleRunning "execute" "a" none 0 c1State (activityRec "a" ActivityState.running)).2.state = ActivityState.succeeded ∧
    findActivity? (activityHandleRunning "execute" "a" none 0 c1State (activityRec "a" ActivityState.running)).1.activities (activityRec "a" ActivityState.running).type =
      some (activityHandleRunning "execute" "a" none 0 c1State (activityRec "a" ActivityState.running)).2 := by
  have A := c1_activity_callback_classification "execute" "a" none 0 c1State
    (activityRec "a" ActivityState.running) (by decide)
  exact ⟨A.1 rfl, A.2.2.2.1⟩
